import Mathlib

/-!
Verification of the Inbound Message Pipeline & Transaction-Batch Synthesizer.

This file shallowly embeds the TypeScript sources of the agent
(`helpers/transaction-helpers.ts`, `server.ts`, `helpers/config.ts`) into
Lean and proves the specified properties of the Signing-Method Normalizer,
the Batch Aggregator, the Eligibility Filter, the Output Dispatcher and the
Stream Supervisor retry loop.

Conventions used in the embedding:
* JavaScript `undefined` for an optional string field is modelled as
  `Option.none`; JavaScript's falsy coalescing `a || b` (which also replaces
  the empty string) is modelled by `jsOr`.
* Machine numbers are modelled as `Nat` (all involved quantities are
  non-negative and JS uses arbitrary-precision `bigint` for token amounts).
* Code that can throw is modelled with `Except`/`Option`.
-/

/-! ### Small JavaScript-flavoured helpers -/

/-- JS `a || b` on an optional string: `undefined` and `""` are falsy. -/
def jsOr (a : Option String) (b : String) : String :=
  match a with
  | some s => if s = "" then b else s
  | none => b

/-- JS `a ? a : b` on an optional number: `undefined` and `0` are falsy. -/
def jsOrNat (a : Option Nat) (b : Nat) : Nat :=
  match a with
  | some n => if n = 0 then b else n
  | none => b

/-- `pre` is a leading chunk of `s` (character lists). -/
def listLeads : List Char → List Char → Bool
  | [], _ => true
  | _ :: _, [] => false
  | a :: as, b :: bs => a == b && listLeads as bs

/-- JS `s.startsWith(pre)`. -/
def strStartsWith (s pre : String) : Bool :=
  listLeads pre.data s.data

/-! ### Lower-case hex rendering (viem's `toHex` on numbers) -/

/-- The sixteen lower-case hex digit characters. -/
def hexChars : List Char := "0123456789abcdef".data

/-- The hex digit character for a value (indexes into `hexChars`). -/
def hexDigitChar (n : Nat) : Char := hexChars.getD n '0'

/-- Digit accumulation for `natHexDigits`; `fuel` bounds the recursion and is
always supplied large enough (the digit count of `n` is at most `n + 1`). -/
def natHexCore : Nat → Nat → List Char → List Char
  | 0, _, acc => acc
  | fuel + 1, n, acc =>
    if n = 0 then acc else natHexCore fuel (n / 16) (hexDigitChar (n % 16) :: acc)

/-- The lower-case hex digits of `n`, most significant first; `"0"` for zero
(matching JS `(0).toString(16)`). -/
def natHexDigits (n : Nat) : String :=
  if n = 0 then "0" else String.mk (natHexCore (n + 1) n [])

/-- viem `toHex` on a non-negative integer: `"0x"` followed by lower-case
hex digits without leading zeros. -/
def toHexNat (n : Nat) : String := "0x" ++ natHexDigits n

/-- `transaction-helpers.ts`: `chainIdToHex(chainId) = toHex(chainId)`. -/
def chainIdToHex (chainId : Nat) : String := toHexNat chainId

/-! ### viem `parseEther` (decimal token amount → wei) -/

/-- ASCII decimal digit test. -/
def charIsDigit (c : Char) : Bool := '0' ≤ c && c ≤ '9'

/-- Numeric value of a list of decimal digits (empty list is `0`,
matching JS `BigInt("")`). -/
def digitsVal (l : List Char) : Nat :=
  l.foldl (fun a c => a * 10 + (c.toNat - '0'.toNat)) 0

/-- Split a character list at `'.'` occurrences (JS `s.split('.')`). -/
def splitDotAux : List Char → List Char → List (List Char)
  | [], cur => [cur.reverse]
  | c :: cs, cur => if c = '.' then cur.reverse :: splitDotAux cs [] else splitDotAux cs (c :: cur)

/-- viem `parseEther` on a non-negative decimal string: `none` models the
exception thrown on malformed input (more than one dot, non-digits, or a
negative amount, which viem's hex rendering would subsequently reject).
Fractions longer than 18 digits are rounded half-up at the 18th digit. -/
def parseEther (s : String) : Option Nat :=
  match splitDotAux s.data [] with
  | [i] => if i.all charIsDigit then some (digitsVal i * 10 ^ 18) else none
  | [i, f] =>
    if i.all charIsDigit && f.all charIsDigit then
      let fLen := min f.length 18
      let base := digitsVal (f.take 18) * 10 ^ (18 - fLen)
      let frac := if h : 18 < f.length then
          (if '5' ≤ f.get ⟨18, h⟩ then base + 1 else base)
        else base
      some (digitsVal i * 10 ^ 18 + frac)
    else none
  | _ => none

/-! ### UTF-8 hex blob (viem `toHex(Buffer.from(s, "utf-8"))`) -/

/-- The UTF-8 encoding of one character, as byte values. -/
def utf8BytesOfChar (c : Char) : List Nat :=
  let v := c.toNat
  if v < 0x80 then [v]
  else if v < 0x800 then [0xC0 ||| (v >>> 6), 0x80 ||| (v &&& 0x3F)]
  else if v < 0x10000 then
    [0xE0 ||| (v >>> 12), 0x80 ||| ((v >>> 6) &&& 0x3F), 0x80 ||| (v &&& 0x3F)]
  else
    [0xF0 ||| (v >>> 18), 0x80 ||| ((v >>> 12) &&& 0x3F),
      0x80 ||| ((v >>> 6) &&& 0x3F), 0x80 ||| (v &&& 0x3F)]

/-- Two lower-case hex characters for one byte value. -/
def byteHexChars (b : Nat) : List Char :=
  [hexDigitChar (b / 16), hexDigitChar (b % 16)]

/-- `toHex(Buffer.from(s, "utf-8"))`: the UTF-8 bytes of `s` as a
`0x`-prefixed lower-case hex blob. -/
def toHexUtf8 (s : String) : String :=
  "0x" ++ String.mk
    ((s.data.foldr (fun c acc => utf8BytesOfChar c ++ acc) []).foldr
      (fun b acc => byteHexChars b ++ acc) [])

example : toHexNat 8453 = "0x2105" := by decide
example : toHexNat 0 = "0x0" := by decide
example : parseEther "1" = some 1000000000000000000 := by decide
example : parseEther "0" = some 0 := by decide
example : parseEther "1.5" = some 1500000000000000000 := by decide
example : parseEther "abc" = none := by decide
example : toHexUtf8 "42" = "0x3432" := by decide
example : strStartsWith "0x123" "0x" = true := by decide
example : strStartsWith "21000" "0x" = false := by decide

/-! ### A model of JS `JSON.parse` / `JSON.stringify`

The Normalizer's typed-data branch calls the JS builtins `JSON.parse` and
`JSON.stringify`. They are modelled here by an executable recursive-descent
parser and serializer over a `Json` value type. Number literals keep their
source text (the claims never exercise JS's re-normalization of numeric
literals). Object fields keep arrival order, as JS objects do. -/

/-- JSON values. Numbers carry their literal text; objects keep field order. -/
inductive Json where
  | null : Json
  | bool (b : Bool) : Json
  | num (lit : String) : Json
  | str (s : String) : Json
  | arr (elems : List Json) : Json
  | obj (fields : List (String × Json)) : Json

/-- The `\x7b` character. -/
def lbrace : Char := Char.ofNat 123

/-- The `\x7d` character. -/
def rbrace : Char := Char.ofNat 125

/-- Skip JSON whitespace. -/
def skipWs : List Char → List Char
  | [] => []
  | c :: cs => if c = ' ' ∨ c = '\n' ∨ c = '\t' ∨ c = '\r' then skipWs cs else c :: cs

/-- Hex digit value of a character, if any. -/
def hexVal (c : Char) : Option Nat :=
  if '0' ≤ c ∧ c ≤ '9' then some (c.toNat - '0'.toNat)
  else if 'a' ≤ c ∧ c ≤ 'f' then some (c.toNat - 'a'.toNat + 10)
  else if 'A' ≤ c ∧ c ≤ 'F' then some (c.toNat - 'A'.toNat + 10)
  else none

/-- Parse the remainder of a JSON string literal (after the opening quote),
accumulating decoded characters; returns the string and the rest of the
input. `fuel` dominates the input length. -/
def parseStringLit : Nat → List Char → List Char → Option (String × List Char)
  | 0, _, _ => none
  | _ + 1, [], _ => none
  | fuel + 1, c :: cs, acc =>
    if c = '"' then some (String.mk acc.reverse, cs)
    else if c = '\\' then
      match cs with
      | [] => none
      | e :: cs' =>
        if e = '"' then parseStringLit fuel cs' ('"' :: acc)
        else if e = '\\' then parseStringLit fuel cs' ('\\' :: acc)
        else if e = '/' then parseStringLit fuel cs' ('/' :: acc)
        else if e = 'b' then parseStringLit fuel cs' (Char.ofNat 8 :: acc)
        else if e = 'f' then parseStringLit fuel cs' (Char.ofNat 12 :: acc)
        else if e = 'n' then parseStringLit fuel cs' ('\n' :: acc)
        else if e = 'r' then parseStringLit fuel cs' ('\r' :: acc)
        else if e = 't' then parseStringLit fuel cs' ('\t' :: acc)
        else if e = 'u' then
          match cs' with
          | h1 :: h2 :: h3 :: h4 :: cs'' =>
            match hexVal h1, hexVal h2, hexVal h3, hexVal h4 with
            | some a, some b, some c2, some d =>
              parseStringLit fuel cs'' (Char.ofNat (((a * 16 + b) * 16 + c2) * 16 + d) :: acc)
            | _, _, _, _ => none
          | _ => none
        else none
    else if c.toNat < 32 then none
    else parseStringLit fuel cs (c :: acc)

/-- Characters that may occur in a JSON number literal. -/
def numChar (c : Char) : Bool :=
  charIsDigit c || c == '-' || c == '+' || c == '.' || c == 'e' || c == 'E'

/-- `"0"` or a digit sequence not starting with `0` (JSON integer part). -/
def jsonIntPart : List Char → Bool
  | [] => false
  | ['0'] => true
  | c :: cs => '1' ≤ c && c ≤ '9' && cs.all charIsDigit

/-- Validate a JSON number literal (after stripping a leading minus):
integer part, optional fraction, optional exponent. -/
def jsonNumBody (l : List Char) : Bool :=
  let intLen := (l.takeWhile charIsDigit).length
  let intPart := l.take intLen
  let rest := l.drop intLen
  if !jsonIntPart intPart then false
  else
    let (frac, rest') :=
      match rest with
      | '.' :: r =>
        let fl := (r.takeWhile charIsDigit).length
        (decide (0 < fl), r.drop fl)
      | _ => (true, rest)
    if !frac then false
    else
      match rest' with
      | [] => true
      | e :: r =>
        if e = 'e' ∨ e = 'E' then
          match r with
          | '+' :: r' => r' ≠ [] && r'.all charIsDigit
          | '-' :: r' => r' ≠ [] && r'.all charIsDigit
          | _ => r ≠ [] && r.all charIsDigit
        else false

/-- Validate a full JSON number literal. -/
def jsonNumValid : List Char → Bool
  | '-' :: l => jsonNumBody l
  | l => jsonNumBody l

/-- Mode of the single recursive JSON parsing function: one value, the
elements of an array after `[`, or the members of an object after the
opening brace. -/
inductive PMode where
  | val : PMode
  | arrElems : PMode
  | objMembers : PMode

/-- Result of one `parseJ` step. -/
inductive POut where
  | v (j : Json) : POut
  | vs (l : List Json) : POut
  | fs (l : List (String × Json)) : POut

/-- Recursive-descent JSON parsing; structural on `fuel`, which the top
level supplies in excess of any possible recursion depth. -/
def parseJ : Nat → PMode → List Char → Option (POut × List Char)
  | 0, _, _ => none
  | fuel + 1, PMode.val, cs =>
    match skipWs cs with
    | [] => none
    | c :: rest =>
      if c = '"' then
        match parseStringLit (rest.length + 1) rest [] with
        | some (s, r) => some (POut.v (Json.str s), r)
        | none => none
      else if c = '[' then
        match skipWs rest with
        | ']' :: r => some (POut.v (Json.arr []), r)
        | r =>
          match parseJ fuel PMode.arrElems r with
          | some (POut.vs l, r') => some (POut.v (Json.arr l), r')
          | _ => none
      else if c = lbrace then
        match skipWs rest with
        | d :: r =>
          if d = rbrace then some (POut.v (Json.obj []), r)
          else
            match parseJ fuel PMode.objMembers (d :: r) with
            | some (POut.fs l, r') => some (POut.v (Json.obj l), r')
            | _ => none
        | [] => none
      else if c = 't' then
        match rest with
        | 'r' :: 'u' :: 'e' :: r => some (POut.v (Json.bool true), r)
        | _ => none
      else if c = 'f' then
        match rest with
        | 'a' :: 'l' :: 's' :: 'e' :: r => some (POut.v (Json.bool false), r)
        | _ => none
      else if c = 'n' then
        match rest with
        | 'u' :: 'l' :: 'l' :: r => some (POut.v Json.null, r)
        | _ => none
      else
        let lit := (c :: rest).takeWhile numChar
        if jsonNumValid lit then
          some (POut.v (Json.num (String.mk lit)), (c :: rest).drop lit.length)
        else none
  | fuel + 1, PMode.arrElems, cs =>
    match parseJ fuel PMode.val cs with
    | some (POut.v j, r) =>
      (match skipWs r with
       | ',' :: r' =>
         match parseJ fuel PMode.arrElems r' with
         | some (POut.vs l, r'') => some (POut.vs (j :: l), r'')
         | _ => none
       | ']' :: r' => some (POut.vs [j], r')
       | _ => none)
    | _ => none
  | fuel + 1, PMode.objMembers, cs =>
    match skipWs cs with
    | '"' :: rest =>
      match parseStringLit (rest.length + 1) rest [] with
      | some (k, r) =>
        (match skipWs r with
         | ':' :: r' =>
           match parseJ fuel PMode.val r' with
           | some (POut.v j, r'') =>
             (match skipWs r'' with
              | ',' :: r3 =>
                match parseJ fuel PMode.objMembers r3 with
                | some (POut.fs l, r4) => some (POut.fs ((k, j) :: l), r4)
                | _ => none
              | d :: r3 =>
                if d = rbrace then some (POut.fs [(k, j)], r3) else none
              | [] => none)
           | _ => none
         | _ => none)
      | none => none
    | _ => none

/-- JS `JSON.parse`: parse one value and require only whitespace after it.
`none` models the thrown `SyntaxError`. -/
def jsonParse (s : String) : Option Json :=
  match parseJ (2 * s.data.length + 4) PMode.val s.data with
  | some (POut.v j, rest) => if skipWs rest = [] then some j else none
  | _ => none

/-- Escape one character as inside a JSON string literal
(JS `JSON.stringify` quoting). -/
def escapeJsonChar (c : Char) : List Char :=
  if c = '"' then ['\\', '"']
  else if c = '\\' then ['\\', '\\']
  else if c = '\n' then ['\\', 'n']
  else if c = '\r' then ['\\', 'r']
  else if c = '\t' then ['\\', 't']
  else if c = Char.ofNat 8 then ['\\', 'b']
  else if c = Char.ofNat 12 then ['\\', 'f']
  else if c.toNat < 32 then
    ['\\', 'u', '0', '0', hexDigitChar (c.toNat / 16), hexDigitChar (c.toNat % 16)]
  else [c]

/-- A quoted, escaped JSON string literal. -/
def quoteJsonString (s : String) : String :=
  String.mk ('"' :: s.data.foldr (fun c acc => escapeJsonChar c ++ acc) ['"'])

/-- Argument of the single recursive serializer. -/
inductive SArg where
  | one (j : Json) : SArg
  | many (l : List Json) : SArg
  | fields (l : List (String × Json)) : SArg

/-- Serializer worker; structural on `fuel`, which `jsonStringify` supplies
in excess of the value's depth. -/
def stringifyCore : Nat → SArg → String
  | 0, _ => ""
  | _ + 1, SArg.one Json.null => "null"
  | _ + 1, SArg.one (Json.bool true) => "true"
  | _ + 1, SArg.one (Json.bool false) => "false"
  | _ + 1, SArg.one (Json.num lit) => lit
  | _ + 1, SArg.one (Json.str s) => quoteJsonString s
  | fuel + 1, SArg.one (Json.arr l) => "[" ++ stringifyCore fuel (SArg.many l) ++ "]"
  | fuel + 1, SArg.one (Json.obj l) =>
    String.mk [lbrace] ++ stringifyCore fuel (SArg.fields l) ++ String.mk [rbrace]
  | _ + 1, SArg.many [] => ""
  | fuel + 1, SArg.many [j] => stringifyCore fuel (SArg.one j)
  | fuel + 1, SArg.many (j :: l) =>
    stringifyCore fuel (SArg.one j) ++ "," ++ stringifyCore fuel (SArg.many l)
  | _ + 1, SArg.fields [] => ""
  | fuel + 1, SArg.fields [(k, j)] => quoteJsonString k ++ ":" ++ stringifyCore fuel (SArg.one j)
  | fuel + 1, SArg.fields ((k, j) :: l) =>
    quoteJsonString k ++ ":" ++ stringifyCore fuel (SArg.one j) ++ "," ++
      stringifyCore fuel (SArg.fields l)

mutual

/-- Node count of a JSON value (dominates the serializer's recursion depth). -/
def jsizeV : Json → Nat
  | Json.null => 1
  | Json.bool _ => 1
  | Json.num _ => 1
  | Json.str _ => 1
  | Json.arr l => 1 + jsizeL l
  | Json.obj l => 1 + jsizeF l

/-- Node count of a list of JSON values. -/
def jsizeL : List Json → Nat
  | [] => 0
  | j :: l => 1 + jsizeV j + jsizeL l

/-- Node count of a list of JSON object members. -/
def jsizeF : List (String × Json) → Nat
  | [] => 0
  | (_, j) :: l => 1 + jsizeV j + jsizeF l

end

/-- JS `JSON.stringify` (on values produced by `JSON.parse`, which contain
no `undefined`/function members). -/
def jsonStringify (j : Json) : String := stringifyCore (jsizeV j) (SArg.one j)

/-- JS truthiness of a parsed JSON value (`null`, `false`, numeric zero and
the empty string are falsy). -/
def jsTruthy : Json → Bool
  | Json.null => false
  | Json.bool b => b
  | Json.num lit =>
    ((lit.data.takeWhile (fun c => c ≠ 'e' ∧ c ≠ 'E')).filter charIsDigit).any (· ≠ '0')
  | Json.str s => s ≠ ""
  | Json.arr _ => true
  | Json.obj _ => true

/-- JS `typedData.domain || \x7b\x7d` on a parsed JSON value: the `domain`
member of an object (last occurrence wins, as in JS), defaulting to the
empty object when the value is not an object, has no such member, or the
member is falsy. Only called on non-`null` values (reading `.domain` off
`null` throws, which the caller models separately). -/
def domainOf (j : Json) : Json :=
  match j with
  | Json.obj fields =>
    match fields.reverse.lookup "domain" with
    | some v => if jsTruthy v then v else Json.obj []
    | none => Json.obj []
  | _ => Json.obj []

example : jsonParse "42" = some (Json.num "42") := rfl
example : jsonParse "not json" = none := rfl
example : jsonParse "null" = some Json.null := rfl
example :
    jsonParse "\x7b\"domain\":\x7b\"verifyingContract\":\"0xCONTRACT\"\x7d\x7d" =
      some (Json.obj [("domain", Json.obj [("verifyingContract", Json.str "0xCONTRACT")])]) :=
  rfl
example :
    jsonStringify (Json.obj [("verifyingContract", Json.str "0xCONTRACT")]) =
      "\x7b\"verifyingContract\":\"0xCONTRACT\"\x7d" := by decide
example : jsonStringify (domainOf (Json.num "42")) = "\x7b\x7d" := by decide
example : jsonParse "[1, 2]" = some (Json.arr [Json.num "1", Json.num "2"]) := rfl
example : jsonParse "\x7b\x7d" = some (Json.obj []) := rfl

/-! ### Data model (`near-safe` `SignRequestData`, XMTP `WalletSendCallsParams`)

`SessionRequestParams` in `server.ts` is the union
`EthTransactionParams[] | Hex | PersonalSignParams | EthSignParams | TypedDataParams`:
either an array of transaction objects or an array of (hex) strings. The
embedding keeps that union. Where a branch of the code reads the other
shape than the one the method expects (possible only for requests outside
the declared tagged union), field access yields JS `undefined`, modelled as
`none`. -/

/-- One element of an `eth_sendTransaction` parameter array
(`EthTransactionParams`); every field may be absent at runtime. `from` and
`to` collide with Lean syntax, so the fields are named `fromAddr`/`toAddr`. -/
structure EthTxParam where
  toAddr : Option String := none
  data : Option String := none
  value : Option String := none
  gas : Option String := none
  fromAddr : Option String := none
deriving DecidableEq

/-- The runtime shape of `SessionRequestParams`. -/
inductive SessionRequestParams where
  | ethTxs (txs : List EthTxParam) : SessionRequestParams
  | strParams (l : List String) : SessionRequestParams
deriving DecidableEq

/-- The cast `params as Array<\x7bto, data, value, from\x7d>`: on an array of
strings, JS property access yields `undefined` for every field. -/
def SessionRequestParams.asTxs : SessionRequestParams → List EthTxParam
  | SessionRequestParams.ethTxs txs => txs
  | SessionRequestParams.strParams l => l.map (fun _ => {})

/-- `params[0]` read as a string (the destructuring in the sign branches);
an object element is not a string, modelled as `none`. -/
def SessionRequestParams.elem0 : SessionRequestParams → Option String
  | SessionRequestParams.strParams l => l.get? 0
  | SessionRequestParams.ethTxs _ => none

/-- `params[1]` read as a string. -/
def SessionRequestParams.elem1 : SessionRequestParams → Option String
  | SessionRequestParams.strParams l => l.get? 1
  | SessionRequestParams.ethTxs _ => none

/-- `SignRequestData`: requested method, decimal chain id, parameters.
The method is a string because the runtime value comes from untyped JSON
(TS types are erased; the `default` branch of the `switch` is reachable). -/
structure SignRequestData where
  method : String
  chainId : Nat
  params : SessionRequestParams
deriving DecidableEq

/-- `validMethods` of `validateEvmTxResponse`: the closed method set. -/
def validMethods : List String :=
  ["eth_sendTransaction", "personal_sign", "eth_sign", "eth_signTypedData",
    "eth_signTypedData_v4"]

/-- Call metadata written by the Normalizer; optional fields are only set by
the branches that produce them. -/
structure CallMeta where
  description : String
  transactionType : String
  callIndex : Option String := none
  messageHash : Option String := none
  signer : Option String := none
  typedDataHash : Option String := none
  domain : Option String := none
deriving DecidableEq

/-- One call of a `WalletSendCallsParams` batch. -/
structure WalletCall where
  toAddr : Option String := none
  data : Option String := none
  value : Option String := none
  gas : Option String := none
  metadata : CallMeta
deriving DecidableEq

/-- The produced batch (`WalletSendCallsParams`). `from` is `Option` because
the sign branches copy a possibly-absent parameter into it. -/
structure WalletSendCallsParams where
  version : String
  chainId : String
  fromAddr : Option String
  calls : List WalletCall
deriving DecidableEq

/-- Errors thrown by the conversion helpers. -/
inductive ConvError where
  /-- `throw new Error("Unsupported signing method: ...")`. -/
  | unsupportedMethod (method : String) : ConvError
  /-- `throw new Error("Failed to parse typed data: ...")`. -/
  | malformedTypedData : ConvError
  /-- The uncaught `TypeError` of reading `.domain` off `null`
  (`JSON.parse` succeeded with `null`, which the `try` does not cover). -/
  | nullTypedData : ConvError
deriving DecidableEq

/-- Decidable equality of thrown-or-returned results. -/
instance {ε α : Type} [DecidableEq ε] [DecidableEq α] : DecidableEq (Except ε α) := fun a b =>
  match a, b with
  | Except.ok x, Except.ok y =>
    if h : x = y then isTrue (by rw [h]) else isFalse (by intro hc; cases hc; exact h rfl)
  | Except.error x, Except.error y =>
    if h : x = y then isTrue (by rw [h]) else isFalse (by intro hc; cases hc; exact h rfl)
  | Except.ok _, Except.error _ => isFalse (by intro hc; cases hc)
  | Except.error _, Except.ok _ => isFalse (by intro hc; cases hc)

/-- JS `Array.prototype.map((x, index) => ...)`, index-passing worker. -/
def mapWithIndexGo (f : Nat → α → β) : Nat → List α → List β
  | _, [] => []
  | i, a :: as => f i a :: mapWithIndexGo f (i + 1) as

/-- JS `Array.prototype.map((x, index) => ...)`. -/
def mapWithIndex (f : Nat → α → β) (l : List α) : List β :=
  mapWithIndexGo f 0 l

/-! ### The Signing-Method Normalizer (`convertEvmTxToWalletSendCalls`) -/

/-- `generateMetadata(method)` of `transaction-helpers.ts`. -/
def generateMetadata (method : String) : CallMeta :=
  { description := "Execute " ++ method ++ " transaction",
    transactionType := method }

/-- `convertEvmTxToWalletSendCalls` of `transaction-helpers.ts` (the
UI-free variant): one `SignRequestData` plus the caller-supplied default
sender to one batch, or a thrown error. -/
def convertEvmTxToWalletSendCalls (evmSignRequest : SignRequestData)
    (userAddress : String) : Except ConvError WalletSendCallsParams :=
  let method := evmSignRequest.method
  let chainId := evmSignRequest.chainId
  let params := evmSignRequest.params
  if method = "eth_sendTransaction" then
    let transactions := params.asTxs
    Except.ok
      { version := "1.0", chainId := chainIdToHex chainId, fromAddr := some userAddress,
        calls := mapWithIndex (fun index tx =>
          { toAddr := tx.toAddr, data := tx.data, value := tx.value,
            metadata := { generateMetadata method with callIndex := some (toString index) } })
          transactions }
  else if method = "personal_sign" then
    let message := params.elem0
    let signerAddress := params.elem1
    Except.ok
      { version := "1.0", chainId := chainIdToHex chainId, fromAddr := signerAddress,
        calls := [{ data := message,
                    metadata := { description := "Sign personal message",
                                  transactionType := "personal_sign",
                                  messageHash := message, signer := signerAddress } }] }
  else if method = "eth_sign" then
    let signerAddress := params.elem0
    let message := params.elem1
    Except.ok
      { version := "1.0", chainId := chainIdToHex chainId, fromAddr := signerAddress,
        calls := [{ data := message,
                    metadata := { description := "Sign message with eth_sign",
                                  transactionType := "eth_sign",
                                  messageHash := message, signer := signerAddress } }] }
  else if method = "eth_signTypedData" ∨ method = "eth_signTypedData_v4" then
    let signerAddress := params.elem0
    match params.elem1 with
    | none => Except.error ConvError.malformedTypedData
    | some typedDataJSON =>
      match jsonParse typedDataJSON with
      | none => Except.error ConvError.malformedTypedData
      | some typedData =>
        match typedData with
        | Json.null => Except.error ConvError.nullTypedData
        | _ =>
          let encodedData := toHexUtf8 typedDataJSON
          Except.ok
            { version := "1.0", chainId := chainIdToHex chainId, fromAddr := signerAddress,
              calls := [{ data := some encodedData,
                          metadata := { description := "Sign typed data (" ++
                                          (if method = "eth_signTypedData_v4" then "v4" else "v1")
                                          ++ ")",
                                        transactionType := method,
                                        signer := signerAddress,
                                        typedDataHash := some encodedData,
                                        domain := some (jsonStringify (domainOf typedData)) } }] }
  else Except.error (ConvError.unsupportedMethod method)

/-- `extractSignerAddress` of `transaction-helpers.ts`. The result is the
possibly-`undefined` address the code returns. -/
def extractSignerAddress (evmSignRequest : SignRequestData) :
    Except ConvError (Option String) :=
  let method := evmSignRequest.method
  let params := evmSignRequest.params
  if method = "eth_sendTransaction" then
    Except.ok (some (jsOr ((params.asTxs.head?).bind EthTxParam.fromAddr)
      "0x0000000000000000000000000000000000000000"))
  else if method = "personal_sign" then
    Except.ok params.elem1
  else if method = "eth_sign" then
    Except.ok params.elem0
  else if method = "eth_signTypedData" ∨ method = "eth_signTypedData_v4" then
    Except.ok params.elem0
  else Except.error (ConvError.unsupportedMethod method)

/-! ### `extractEvmTxCall` (`helpers/tools.ts` variant of the Normalizer) -/

/-- `BASE_CHAIN_ID` imported from the config: Base mainnet, 8453 (the sibling
variant of `extractEvmTxCall` inlines `"8453"`). -/
def BASE_CHAIN_ID : Nat := 8453

/-- The arguments object of a `generate-evm-tx` tool invocation. The chain
id arrives already parsed to a number (`Number.parseInt` of the wire
string); `none` models an absent argument. -/
structure ToolCallArgs where
  params : List EthTxParam := []
  chainId : Option Nat := none
  method : Option String := none
deriving DecidableEq

/-- The `value` conversion inside `extractEvmTxCall`:
`valueParam?.startsWith("0x") ? valueParam : toHex(parseEther(valueParam || "0"))`.
`none` models the exception `parseEther` throws on malformed input. -/
def valueHexOf (valueParam : Option String) : Option String :=
  match valueParam with
  | some v => if strStartsWith v "0x" then some v else (parseEther v).map toHexNat
  | none => (parseEther "0").map toHexNat

/-- One call produced by `extractEvmTxCall` for one parameter element. -/
def extractCallOf (method : Option String) (param : EthTxParam) : Option WalletCall :=
  match valueHexOf param.value with
  | none => none
  | some valueHex =>
    some { toAddr := param.toAddr, data := param.data, value := some valueHex, gas := param.gas,
           metadata := { description := jsOr method "bitte tx",
                         transactionType := jsOr method "transfer" } }

/-- JS `Array.prototype.map` with a callback that may throw. -/
def mapOption (f : α → Option β) : List α → Option (List β)
  | [] => some []
  | a :: as =>
    match f a, mapOption f as with
    | some b, some bs => some (b :: bs)
    | _, _ => none

/-- `extractEvmTxCall` of `helpers/tools.ts`: one tool invocation to one
batch fragment; `none` models a thrown exception. -/
def extractEvmTxCall (toolCall : ToolCallArgs) (addressFromInboxId : String) :
    Option WalletSendCallsParams :=
  let params := toolCall.params
  let chainIdHex := toHexNat (jsOrNat toolCall.chainId BASE_CHAIN_ID)
  match mapOption (extractCallOf toolCall.method) params with
  | none => none
  | some calls =>
    some { version := "1.0.0", chainId := chainIdHex,
           fromAddr := some (jsOr ((params.head?).bind EthTxParam.fromAddr) addressFromInboxId),
           calls := calls }

example :
    convertEvmTxToWalletSendCalls
      { method := "eth_sendTransaction", chainId := 8453,
        params := SessionRequestParams.ethTxs [] } "0xuser" =
    Except.ok { version := "1.0", chainId := "0x2105", fromAddr := some "0xuser", calls := [] } := by
  decide

example :
    convertEvmTxToWalletSendCalls
      { method := "eth_wrong", chainId := 1,
        params := SessionRequestParams.strParams [] } "0xuser" =
    Except.error (ConvError.unsupportedMethod "eth_wrong") := by decide

example :
    extractEvmTxCall
      { params := [{ toAddr := some "0xT", value := some "1", gas := some "21000",
                     fromAddr := some "0xA" }], chainId := some 8453,
        method := some "eth_sendTransaction" } "0xdefault" =
    some { version := "1.0.0", chainId := "0x2105", fromAddr := some "0xA",
           calls := [{ toAddr := some "0xT", data := none, value := some "0xde0b6b3a7640000",
                       gas := some "21000",
                       metadata := { description := "eth_sendTransaction",
                                     transactionType := "eth_sendTransaction" } }] } := by decide

/-! ### The Batch Aggregator (`groupedTxs` of `server.ts`)

The source inserts each fragment into a JS `Map` keyed by the template
string `chainId + "-" + from + "-" + version`; `Map` preserves insertion
order and the send loop iterates it in that order. The embedding keeps an
association list over any decidable key type and instantiates it with the
source's string key (and, for the specification side, with the raw
`(chainId, from, version)` triple). -/

/-- JS template interpolation of the `from` field (an absent field renders
as the string `"undefined"`). -/
def optStr : Option String → String
  | some s => s
  | none => "undefined"

/-- The source's grouping key: the interpolated template string. -/
def groupKey (txCall : WalletSendCallsParams) : String :=
  txCall.chainId ++ "-" ++ optStr txCall.fromAddr ++ "-" ++ txCall.version

/-- The intended grouping key: the raw `(chainId, from, version)` triple. -/
def tripleKey (txCall : WalletSendCallsParams) : String × Option String × String :=
  (txCall.chainId, txCall.fromAddr, txCall.version)

section Aggregator

variable {K : Type} [DecidableEq K]

/-- One iteration of the grouping loop: append the fragment's calls to the
existing group with the same key, or start a fresh group from its fields. -/
def insertBy (κ : WalletSendCallsParams → K) (acc : List (K × WalletSendCallsParams))
    (txCall : WalletSendCallsParams) : List (K × WalletSendCallsParams) :=
  let k := κ txCall
  if acc.any (fun p => p.1 = k) then
    acc.map (fun p =>
      if p.1 = k then (p.1, { p.2 with calls := p.2.calls ++ txCall.calls }) else p)
  else
    acc ++ [(k, { version := txCall.version, chainId := txCall.chainId,
                  fromAddr := txCall.fromAddr, calls := txCall.calls })]

/-- First occurrence of each key, in arrival order (used only to state what
the aggregator produces). -/
def dedupByKey (κ : WalletSendCallsParams → K) (seen : List K) :
    List WalletSendCallsParams → List WalletSendCallsParams
  | [] => []
  | t :: ts =>
    if κ t ∈ seen then dedupByKey κ seen ts
    else t :: dedupByKey κ (κ t :: seen) ts

/-- The batch a key group collapses to: header fields of the first fragment
with that key, calls of all of them concatenated in arrival order. -/
def mergeBatch (κ : WalletSendCallsParams → K) (l : List WalletSendCallsParams)
    (t0 : WalletSendCallsParams) : WalletSendCallsParams :=
  { version := t0.version, chainId := t0.chainId, fromAddr := t0.fromAddr,
    calls := (l.filter (fun t => κ t = κ t0)).flatMap WalletSendCallsParams.calls }

end Aggregator

/-- The grouping loop of `server.ts` (lines building `groupedTxs` and then
iterating it to send): fragments in arrival order to batches in
first-arrival key order. -/
def groupedTxs (evmTxCalls : List WalletSendCallsParams) : List WalletSendCallsParams :=
  (evmTxCalls.foldl (insertBy groupKey) []).map Prod.snd

/-- A fragment as actually produced by the Normalizer/extractors: the chain
id is a `0x…` hex rendering and the schema version a dotted literal, so
neither contains `'-'`, and the sender field is present. -/
def wfFragment (t : WalletSendCallsParams) : Prop :=
  '-' ∉ t.chainId.data ∧ '-' ∉ t.version.data ∧ t.fromAddr.isSome = true

instance (t : WalletSendCallsParams) : Decidable (wfFragment t) := by
  unfold wfFragment; infer_instance

/-! ### The Output Dispatcher (`sendMessage` of `helpers/client.ts`) -/

/-- XMTP content-type tags relevant to the dispatcher. -/
inductive XContentType where
  | reaction : XContentType
  | reply : XContentType
  | text : XContentType
  | walletSendCalls : XContentType
  | transactionReference : XContentType
deriving DecidableEq

/-- The reply wrapper object the dispatcher builds for group sends. -/
structure ReplyWrapper (α : Type) where
  reference : String
  content : α
  contentType : XContentType
deriving DecidableEq

/-- What finally goes over the wire: the bare content, or the reply
wrapper object. -/
inductive WireContent (α : Type) where
  | raw (content : α) : WireContent α
  | wrapped (reply : ReplyWrapper α) : WireContent α
deriving DecidableEq

/-- `sendMessage` of `helpers/client.ts`: choose the object to send and the
content-type tag to send it under. The content payload itself is opaque to
the dispatcher (it only inspects `isGroup` and the content-type tag). -/
def sendMessage (isGroup : Bool) (content : α) (reference : String)
    (contentType : XContentType) : WireContent α × XContentType :=
  if isGroup = false ∨ contentType = XContentType.reaction then
    (WireContent.raw content, contentType)
  else
    let hasWalletSendCalls := contentType = XContentType.walletSendCalls
    let reply : ReplyWrapper α :=
      { reference := reference, content := content, contentType := contentType }
    let replyContentType := if hasWalletSendCalls then contentType else XContentType.reply
    (WireContent.wrapped reply, replyContentType)

/-! ### The Eligibility Filter (the guard chain of `handleStream`) -/

/-- The per-event decision. -/
inductive Decision where
  | drop : Decision
  | sendWelcome : Decision
  | process : Decision
deriving DecidableEq

/-- One inbound event together with the conversation context the guard
chain of `handleStream` consults. The mention test (`isTaggingClient`) and
the reply-target test (`isReplyToAgent`) are carried as the booleans those
helpers compute. -/
structure StreamEvent where
  hasContentType : Bool
  senderInboxId : String
  isReaction : Bool
  conversationFound : Bool
  messageContent : String
  isDm : Bool
  isGroup : Bool
  isGroupUpdated : Bool
  hasAgentReplied : Bool
  taggingClient : Bool
  replyToAgent : Bool
deriving DecidableEq

/-- The guard chain of `handleStream` (`server.ts`), in source order:
invalid/own/reaction/not-found/empty/group-update events are skipped; a
first interaction in a DM or group sends the welcome and `continue`s
(the event is not processed as a command); a group message neither
mentioning the agent nor replying to it is skipped; otherwise the event is
processed. -/
def handleStreamDecision (clientInboxId : String) (m : StreamEvent) : Decision :=
  if m.hasContentType = false then Decision.drop
  else if m.senderInboxId = clientInboxId then Decision.drop
  else if m.isReaction = true then Decision.drop
  else if m.conversationFound = false then Decision.drop
  else if m.messageContent = "" then Decision.drop
  else if m.isGroupUpdated = true then Decision.drop
  else if (m.isDm || m.isGroup) = true ∧ m.messageContent ≠ "" then
    if m.hasAgentReplied = false then Decision.sendWelcome
    else if m.isGroup = true ∧ ¬m.taggingClient = true ∧ ¬m.replyToAgent = true then
      Decision.drop
    else Decision.process
  else Decision.drop

/-! ### The Stream Supervisor retry loop (`retry` of `server.ts`) -/

/-- `MAX_RETRIES` of `server.ts`. -/
def MAX_RETRIES : Nat := 5

/-- Supervisor state: the remaining-retries counter, whether the process
has exited (`process.exit(1)`), and how many backoff-and-reconnect cycles
(`setTimeout(handleStream, RETRY_INTERVAL)`) have been performed. -/
structure RetryState where
  retries : Nat
  stopped : Bool
  backoffs : Nat
deriving DecidableEq

/-- One invocation of `retry()` after a stream failure: with retries left,
decrement and schedule a reconnect; otherwise exit the process. A stopped
process observes no further failures. -/
def retryStep (s : RetryState) : RetryState :=
  if s.stopped then s
  else if s.retries > 0 then
    { retries := s.retries - 1, stopped := false, backoffs := s.backoffs + 1 }
  else { s with stopped := true }

/-- A constantly-failing subscription: every (re)connection attempt fails,
invoking `retry()` each time. -/
def failN : Nat → RetryState → RetryState
  | 0, s => s
  | n + 1, s => failN n (retryStep s)

/-- The initial supervisor state. -/
def initRetryState : RetryState :=
  { retries := MAX_RETRIES, stopped := false, backoffs := 0 }

example :
    groupedTxs
      [{ version := "1.0.0", chainId := "0x2105", fromAddr := some "0xa",
         calls := [{ toAddr := some "0x1", metadata := { description := "d1", transactionType := "t" } }] },
       { version := "1.0.0", chainId := "0x2105", fromAddr := some "0xa",
         calls := [{ toAddr := some "0x2", metadata := { description := "d2", transactionType := "t" } }] }] =
      [{ version := "1.0.0", chainId := "0x2105", fromAddr := some "0xa",
         calls := [{ toAddr := some "0x1", metadata := { description := "d1", transactionType := "t" } },
                   { toAddr := some "0x2", metadata := { description := "d2", transactionType := "t" } }] }] := by
  decide

example : failN 5 initRetryState = { retries := 0, stopped := false, backoffs := 5 } := by decide
example : failN 6 initRetryState = { retries := 0, stopped := true, backoffs := 5 } := by decide

/-! ## Claim C9 — Stream Supervisor retry bound -/

/-- **C9.** With retry bound `MAX_RETRIES = 5` and a constantly-failing
subscription, the supervisor performs exactly 5 backoff-and-reconnect
cycles: after the 5th failed reconnection it is still running (5 backoffs,
0 retries left), and the 6th failure exits the process without scheduling
a 6th backoff. -/
theorem retry_bound_five :
    failN 5 initRetryState = { retries := 0, stopped := false, backoffs := 5 } ∧
    failN 6 initRetryState = { retries := 0, stopped := true, backoffs := 5 } ∧
    MAX_RETRIES = 5 := by
  refine ⟨by decide, by decide, rfl⟩

/-! ## Claim C10 — zero-address fallback of `extractSignerAddress` -/

/-- **C10.** For an `eth_sendTransaction` request whose parameter array is
empty, or whose first element lacks a `from` field, `extractSignerAddress`
does not throw: it returns the all-zero address as the signer. -/
theorem extractSignerAddress_zero_fallback (req : SignRequestData)
    (hm : req.method = "eth_sendTransaction")
    (h : req.params.asTxs = [] ∨
      ∃ tx rest, req.params.asTxs = tx :: rest ∧ tx.fromAddr = none) :
    extractSignerAddress req =
      Except.ok (some "0x0000000000000000000000000000000000000000") := by
  obtain ⟨m, cid, p⟩ := req
  simp only at hm
  subst hm
  show Except.ok (some (jsOr ((p.asTxs.head?).bind EthTxParam.fromAddr) _)) = _
  rcases h with h | ⟨tx, rest, h, hfrom⟩ <;> simp_all [jsOr]

/-- Witness for C10: a concrete empty-parameter request. -/
theorem extractSignerAddress_zero_fallback_witness :
    extractSignerAddress
      { method := "eth_sendTransaction", chainId := 1,
        params := SessionRequestParams.ethTxs [] } =
      Except.ok (some "0x0000000000000000000000000000000000000000") :=
  extractSignerAddress_zero_fallback _ rfl (Or.inl rfl)

/-! ## Claim C8 — Output Dispatcher group delivery shapes -/

/-- **C8 (amended).** For a group send: a text payload is wrapped as a
threaded reply referencing the triggering event id and sent under the
reply content-type; a reaction is sent directly; a transaction batch keeps
the wallet-send-calls content-type **tag** (it is not sent under the reply
type), but the object transmitted is the reply wrapper containing the
batch and the reference — not the bare batch. -/
theorem sendMessage_group_shapes {α : Type} (content : α) (reference : String) :
    sendMessage true content reference XContentType.text =
      (WireContent.wrapped
        { reference := reference, content := content, contentType := XContentType.text },
       XContentType.reply) ∧
    sendMessage true content reference XContentType.reaction =
      (WireContent.raw content, XContentType.reaction) ∧
    sendMessage true content reference XContentType.walletSendCalls =
      (WireContent.wrapped
        { reference := reference, content := content,
          contentType := XContentType.walletSendCalls },
       XContentType.walletSendCalls) := by
  refine ⟨?_, ?_, ?_⟩ <;> rfl

/-- Counterexample for C8 as stated: in a group, a transaction batch is
*not* sent directly — the transmitted object is the reply wrapper (only the
content-type tag stays the batch's own). -/
theorem sendMessage_group_batch_not_direct :
    sendMessage true "batchPayload" "msg1" XContentType.walletSendCalls =
      (WireContent.wrapped
        { reference := "msg1", content := "batchPayload",
          contentType := XContentType.walletSendCalls },
       XContentType.walletSendCalls) ∧
    (sendMessage true "batchPayload" "msg1" XContentType.walletSendCalls).1 ≠
      WireContent.raw "batchPayload" := by
  refine ⟨rfl, by decide⟩

/-! ## Claim C7 — when the Eligibility Filter returns `send-welcome` -/

/-- **C7 (amended).** The filter returns `send-welcome` exactly when the
event survives every earlier drop rule, the conversation is a **DM or** a
group, and the agent's identity has sent no prior message into it; the
triggering event itself is then not processed as a command (the decision is
`sendWelcome`, not `process`). The claim's restriction to groups fails:
first-contact DMs are welcomed too. -/
theorem handleStream_welcome_iff (clientInboxId : String) (m : StreamEvent) :
    handleStreamDecision clientInboxId m = Decision.sendWelcome ↔
      (m.hasContentType = true ∧ m.senderInboxId ≠ clientInboxId ∧
        m.isReaction = false ∧ m.conversationFound = true ∧
        m.messageContent ≠ "" ∧ m.isGroupUpdated = false ∧
        (m.isDm = true ∨ m.isGroup = true) ∧ m.hasAgentReplied = false) := by
  unfold handleStreamDecision
  split_ifs <;> simp_all

/-- Witness for C7: a concrete first-contact group message is welcomed. -/
theorem handleStream_welcome_iff_witness :
    handleStreamDecision "client"
      { hasContentType := true, senderInboxId := "alice", isReaction := false,
        conversationFound := true, messageContent := "hi @bitte", isDm := false,
        isGroup := true, isGroupUpdated := false, hasAgentReplied := false,
        taggingClient := true, replyToAgent := false } = Decision.sendWelcome :=
  (handleStream_welcome_iff "client" _).mpr (by decide)

/-- Counterexample for C7 as stated: a first-contact **DM** (not a group)
also gets `send-welcome`, so "exactly when the conversation is a group" is
false on the code. -/
theorem handleStream_welcome_dm_counterexample :
    handleStreamDecision "client"
      { hasContentType := true, senderInboxId := "alice", isReaction := false,
        conversationFound := true, messageContent := "hi", isDm := true,
        isGroup := false, isGroupUpdated := false, hasAgentReplied := false,
        taggingClient := false, replyToAgent := false } = Decision.sendWelcome ∧
    ({ hasContentType := true, senderInboxId := "alice", isReaction := false,
       conversationFound := true, messageContent := "hi", isDm := true,
       isGroup := false, isGroupUpdated := false, hasAgentReplied := false,
       taggingClient := false, replyToAgent := false } : StreamEvent).isGroup = false := by
  refine ⟨by decide, rfl⟩

/-! ### List helper lemmas -/

theorem mapWithIndexGo_length (f : Nat → α → β) :
    ∀ (l : List α) (i : Nat), (mapWithIndexGo f i l).length = l.length
  | [], _ => rfl
  | _ :: as, i => by
    simp only [mapWithIndexGo, List.length_cons, mapWithIndexGo_length f as]

theorem mapWithIndex_length (f : Nat → α → β) (l : List α) :
    (mapWithIndex f l).length = l.length :=
  mapWithIndexGo_length f l 0

theorem mapWithIndexGo_get (f : Nat → α → β) :
    ∀ (l : List α) (i k : Nat) (h : k < l.length)
      (h' : k < (mapWithIndexGo f i l).length),
      (mapWithIndexGo f i l).get ⟨k, h'⟩ = f (i + k) (l.get ⟨k, h⟩)
  | [], _, k, h, _ => absurd h (by simp)
  | a :: as, i, 0, _, _ => by simp [mapWithIndexGo]
  | a :: as, i, k + 1, h, h' => by
    have ih := mapWithIndexGo_get f as (i + 1) k (by simpa using h)
      (by simpa [mapWithIndexGo] using h')
    simpa [mapWithIndexGo, Nat.add_assoc, Nat.add_comm 1 k] using ih

theorem mapWithIndex_get (f : Nat → α → β) (l : List α) (k : Nat)
    (h : k < l.length) (h' : k < (mapWithIndex f l).length) :
    (mapWithIndex f l).get ⟨k, h'⟩ = f k (l.get ⟨k, h⟩) := by
  simpa using mapWithIndexGo_get f l 0 k h h'

theorem mapOption_length (f : α → Option β) :
    ∀ (l : List α) (res : List β), mapOption f l = some res → res.length = l.length
  | [], res, h => by simp [mapOption] at h; simp [← h]
  | a :: as, res, h => by
    simp only [mapOption] at h
    cases hfa : f a with
    | none => rw [hfa] at h; exact absurd h (by simp)
    | some b =>
      rw [hfa] at h
      cases hms : mapOption f as with
      | none => rw [hms] at h; exact absurd h (by simp)
      | some bs =>
        rw [hms] at h
        cases h
        simp [mapOption_length f as bs hms]

theorem mapOption_get (f : α → Option β) :
    ∀ (l : List α) (res : List β), mapOption f l = some res →
      ∀ (k : Nat) (h : k < l.length) (h' : k < res.length),
        f (l.get ⟨k, h⟩) = some (res.get ⟨k, h'⟩)
  | [], res, hm, k, h, _ => absurd h (by simp)
  | a :: as, res, hm, k, h, h' => by
    simp only [mapOption] at hm
    cases hfa : f a with
    | none => rw [hfa] at hm; exact absurd hm (by simp)
    | some b =>
      rw [hfa] at hm
      cases hms : mapOption f as with
      | none => rw [hms] at hm; exact absurd hm (by simp)
      | some bs =>
        rw [hms] at hm
        cases hm
        cases k with
        | zero => simpa using hfa
        | succ k =>
          exact mapOption_get f as bs hms k (by simpa using h) (by simpa using h')

theorem mapOption_mem (f : α → Option β) :
    ∀ (l : List α) (res : List β), mapOption f l = some res →
      ∀ b ∈ res, ∃ a ∈ l, f a = some b
  | [], res, hm, b, hb => by
    simp [mapOption] at hm; subst hm; simp at hb
  | a :: as, res, hm, b, hb => by
    simp only [mapOption] at hm
    cases hfa : f a with
    | none => rw [hfa] at hm; exact absurd hm (by simp)
    | some b' =>
      rw [hfa] at hm
      cases hms : mapOption f as with
      | none => rw [hms] at hm; exact absurd hm (by simp)
      | some bs =>
        rw [hms] at hm
        cases hm
        rcases List.mem_cons.mp hb with rfl | hb
        · exact ⟨a, by simp, hfa⟩
        · obtain ⟨a', ha', hfa'⟩ := mapOption_mem f as bs hms b hb
          exact ⟨a', by simp [ha'], hfa'⟩

/-! ### Branch reduction lemmas for the Normalizer -/

theorem convert_sendTx (cid : Nat) (p : SessionRequestParams) (user : String) :
    convertEvmTxToWalletSendCalls ⟨"eth_sendTransaction", cid, p⟩ user =
      Except.ok
        { version := "1.0", chainId := chainIdToHex cid, fromAddr := some user,
          calls := mapWithIndex (fun index tx =>
            { toAddr := tx.toAddr, data := tx.data, value := tx.value,
              metadata := { generateMetadata "eth_sendTransaction" with
                            callIndex := some (toString index) } }) p.asTxs } := rfl

theorem convert_personalSign (cid : Nat) (p : SessionRequestParams) (user : String) :
    convertEvmTxToWalletSendCalls ⟨"personal_sign", cid, p⟩ user =
      Except.ok
        { version := "1.0", chainId := chainIdToHex cid, fromAddr := p.elem1,
          calls := [{ data := p.elem0,
                      metadata := { description := "Sign personal message",
                                    transactionType := "personal_sign",
                                    messageHash := p.elem0, signer := p.elem1 } }] } := rfl

theorem convert_ethSign (cid : Nat) (p : SessionRequestParams) (user : String) :
    convertEvmTxToWalletSendCalls ⟨"eth_sign", cid, p⟩ user =
      Except.ok
        { version := "1.0", chainId := chainIdToHex cid, fromAddr := p.elem0,
          calls := [{ data := p.elem1,
                      metadata := { description := "Sign message with eth_sign",
                                    transactionType := "eth_sign",
                                    messageHash := p.elem1, signer := p.elem0 } }] } := rfl

theorem convert_typedData_v1 (cid : Nat) (p : SessionRequestParams) (user : String) :
    convertEvmTxToWalletSendCalls ⟨"eth_signTypedData", cid, p⟩ user =
      (match p.elem1 with
       | none => Except.error ConvError.malformedTypedData
       | some typedDataJSON =>
         match jsonParse typedDataJSON with
         | none => Except.error ConvError.malformedTypedData
         | some typedData =>
           match typedData with
           | Json.null => Except.error ConvError.nullTypedData
           | _ =>
             Except.ok
               { version := "1.0", chainId := chainIdToHex cid, fromAddr := p.elem0,
                 calls := [{ data := some (toHexUtf8 typedDataJSON),
                             metadata := { description := "Sign typed data (v1)",
                                           transactionType := "eth_signTypedData",
                                           signer := p.elem0,
                                           typedDataHash := some (toHexUtf8 typedDataJSON),
                                           domain := some (jsonStringify (domainOf typedData)) } }] }) :=
  rfl

theorem convert_typedData_v4 (cid : Nat) (p : SessionRequestParams) (user : String) :
    convertEvmTxToWalletSendCalls ⟨"eth_signTypedData_v4", cid, p⟩ user =
      (match p.elem1 with
       | none => Except.error ConvError.malformedTypedData
       | some typedDataJSON =>
         match jsonParse typedDataJSON with
         | none => Except.error ConvError.malformedTypedData
         | some typedData =>
           match typedData with
           | Json.null => Except.error ConvError.nullTypedData
           | _ =>
             Except.ok
               { version := "1.0", chainId := chainIdToHex cid, fromAddr := p.elem0,
                 calls := [{ data := some (toHexUtf8 typedDataJSON),
                             metadata := { description := "Sign typed data (v4)",
                                           transactionType := "eth_signTypedData_v4",
                                           signer := p.elem0,
                                           typedDataHash := some (toHexUtf8 typedDataJSON),
                                           domain := some (jsonStringify (domainOf typedData)) } }] }) :=
  rfl

/-- The typed-data pair of the closed method set. -/
def isTypedDataMethod (m : String) : Prop :=
  m = "eth_signTypedData" ∨ m = "eth_signTypedData_v4"

instance (m : String) : Decidable (isTypedDataMethod m) := by
  unfold isTypedDataMethod; infer_instance

/-- What `JSON.parse` sees for a typed-data request: the second parameter,
parsed (`none` when the parameter is absent or its text does not parse). -/
def typedDataParsed (p : SessionRequestParams) : Option Json :=
  p.elem1.bind jsonParse

/-! ## Claim C1 — method coverage of the Normalizer -/

/-- **C1 (amended).** For every request whose method tag is in the closed
set, the Normalizer returns exactly one batch fragment, except that a
typed-data request whose JSON text is absent or fails to parse throws
`MalformedTypedData`, and one whose text parses to JSON `null` throws the
(uncaught) type error of reading `.domain` off `null`. For every method tag
outside the closed set it throws `UnsupportedMethod` and returns no
fragment. -/
theorem convert_method_coverage (req : SignRequestData) (user : String) :
    (req.method ∈ validMethods →
      (convertEvmTxToWalletSendCalls req user).isOk = true ∨
      (isTypedDataMethod req.method ∧ typedDataParsed req.params = none ∧
        convertEvmTxToWalletSendCalls req user = Except.error ConvError.malformedTypedData) ∨
      (isTypedDataMethod req.method ∧ typedDataParsed req.params = some Json.null ∧
        convertEvmTxToWalletSendCalls req user = Except.error ConvError.nullTypedData)) ∧
    (req.method ∉ validMethods →
      convertEvmTxToWalletSendCalls req user =
        Except.error (ConvError.unsupportedMethod req.method)) := by
  obtain ⟨m, cid, p⟩ := req
  constructor
  · intro h
    simp only [validMethods, List.mem_cons, List.mem_singleton] at h
    rcases h with rfl | rfl | rfl | rfl | rfl | h
    · exact Or.inl (by rw [convert_sendTx]; rfl)
    · exact Or.inl (by rw [convert_personalSign]; rfl)
    · exact Or.inl (by rw [convert_ethSign]; rfl)
    · rw [convert_typedData_v1]
      cases h1 : p.elem1 with
      | none =>
        exact Or.inr (Or.inl ⟨Or.inl rfl, by simp [typedDataParsed, h1], rfl⟩)
      | some txt =>
        cases h2 : jsonParse txt with
        | none =>
          refine Or.inr (Or.inl ⟨Or.inl rfl, by simp [typedDataParsed, h1, h2], ?_⟩)
          simp only [h2]
        | some j =>
          cases j with
          | null =>
            refine Or.inr (Or.inr ⟨Or.inl rfl, by simp [typedDataParsed, h1, h2], ?_⟩)
            simp only [h2]
          | bool b => refine Or.inl ?_; simp only [h2]; rfl
          | num lit => refine Or.inl ?_; simp only [h2]; rfl
          | str s => refine Or.inl ?_; simp only [h2]; rfl
          | arr l => refine Or.inl ?_; simp only [h2]; rfl
          | obj l => refine Or.inl ?_; simp only [h2]; rfl
    · rw [convert_typedData_v4]
      cases h1 : p.elem1 with
      | none =>
        exact Or.inr (Or.inl ⟨Or.inr rfl, by simp [typedDataParsed, h1], rfl⟩)
      | some txt =>
        cases h2 : jsonParse txt with
        | none =>
          refine Or.inr (Or.inl ⟨Or.inr rfl, by simp [typedDataParsed, h1, h2], ?_⟩)
          simp only [h2]
        | some j =>
          cases j with
          | null =>
            refine Or.inr (Or.inr ⟨Or.inr rfl, by simp [typedDataParsed, h1, h2], ?_⟩)
            simp only [h2]
          | bool b => refine Or.inl ?_; simp only [h2]; rfl
          | num lit => refine Or.inl ?_; simp only [h2]; rfl
          | str s => refine Or.inl ?_; simp only [h2]; rfl
          | arr l => refine Or.inl ?_; simp only [h2]; rfl
          | obj l => refine Or.inl ?_; simp only [h2]; rfl
    · exact absurd h (by simp)
  · intro h
    simp only [validMethods, List.mem_cons, List.mem_singleton, not_or] at h
    obtain ⟨h1, h2, h3, h4, h5⟩ := h
    show (if m = "eth_sendTransaction" then _ else _) = _
    rw [if_neg h1, if_neg h2, if_neg h3, if_neg (by tauto)]

/-- Counterexample for C1 as stated: `eth_signTypedData_v4` is in the closed
set, yet the request whose typed-data text is `"not json"` produces no
fragment — it throws `MalformedTypedData`, which is not `UnsupportedMethod`
either. -/
theorem convert_method_coverage_counterexample :
    "eth_signTypedData_v4" ∈ validMethods ∧
    convertEvmTxToWalletSendCalls
      { method := "eth_signTypedData_v4", chainId := 1,
        params := SessionRequestParams.strParams ["0xabc", "not json"] } "0xdef" =
      Except.error ConvError.malformedTypedData := by
  exact ⟨by decide, rfl⟩

/-- Witness for C1: a `personal_sign` request in the closed set yields a
fragment; a method tag outside the closed set yields `UnsupportedMethod`. -/
theorem convert_method_coverage_witness :
    (convertEvmTxToWalletSendCalls
      { method := "personal_sign", chainId := 1,
        params := SessionRequestParams.strParams ["0xmsg", "0xsigner"] } "0xu").isOk = true ∧
    convertEvmTxToWalletSendCalls
      { method := "eth_foo", chainId := 1,
        params := SessionRequestParams.strParams [] } "0xu" =
      Except.error (ConvError.unsupportedMethod "eth_foo") := by
  constructor
  · rcases (convert_method_coverage
      { method := "personal_sign", chainId := 1,
        params := SessionRequestParams.strParams ["0xmsg", "0xsigner"] } "0xu").1
      (by decide) with h | ⟨h', _⟩ | ⟨h', _⟩
    · exact h
    · exact absurd h' (by decide)
    · exact absurd h' (by decide)
  · exact (convert_method_coverage
      { method := "eth_foo", chainId := 1,
        params := SessionRequestParams.strParams [] } "0xu").2 (by decide)

/-! ## Claim C3 — one fragment per request, calls count -/

/-- **C3 (amended).** For every method in the closed set the Normalizer
produces exactly one fragment (for typed-data methods: whenever the JSON
text parses to a non-`null` value), but the fragment's `calls` list is
non-empty only as far as the input provides calls: for
`eth_sendTransaction` it carries exactly one call per element of the
parameter array — so an empty parameter array yields an **empty** calls
list — while the four signing methods always carry exactly one call. -/
theorem convert_calls_count (req : SignRequestData) (user : String) :
    (req.method = "eth_sendTransaction" →
      ∃ w, convertEvmTxToWalletSendCalls req user = Except.ok w ∧
        w.calls.length = req.params.asTxs.length) ∧
    (req.method = "personal_sign" ∨ req.method = "eth_sign" →
      ∃ w, convertEvmTxToWalletSendCalls req user = Except.ok w ∧
        w.calls.length = 1) ∧
    (isTypedDataMethod req.method →
      ∀ j, typedDataParsed req.params = some j → j ≠ Json.null →
        ∃ w, convertEvmTxToWalletSendCalls req user = Except.ok w ∧
          w.calls.length = 1) := by
  obtain ⟨m, cid, p⟩ := req
  refine ⟨?_, ?_, ?_⟩
  · rintro rfl
    exact ⟨_, convert_sendTx cid p user, mapWithIndex_length _ _⟩
  · rintro (rfl | rfl)
    · exact ⟨_, convert_personalSign cid p user, rfl⟩
    · exact ⟨_, convert_ethSign cid p user, rfl⟩
  · rintro (rfl | rfl) j hp hnull
    · rw [convert_typedData_v1]
      cases h1 : p.elem1 with
      | none => simp [typedDataParsed, h1] at hp
      | some txt =>
        have hp' : jsonParse txt = some j := by simpa [typedDataParsed, h1] using hp
        simp only [hp']
        cases j with
        | null => exact absurd rfl hnull
        | bool b => exact ⟨_, rfl, rfl⟩
        | num lit => exact ⟨_, rfl, rfl⟩
        | str s => exact ⟨_, rfl, rfl⟩
        | arr l => exact ⟨_, rfl, rfl⟩
        | obj l => exact ⟨_, rfl, rfl⟩
    · rw [convert_typedData_v4]
      cases h1 : p.elem1 with
      | none => simp [typedDataParsed, h1] at hp
      | some txt =>
        have hp' : jsonParse txt = some j := by simpa [typedDataParsed, h1] using hp
        simp only [hp']
        cases j with
        | null => exact absurd rfl hnull
        | bool b => exact ⟨_, rfl, rfl⟩
        | num lit => exact ⟨_, rfl, rfl⟩
        | str s => exact ⟨_, rfl, rfl⟩
        | arr l => exact ⟨_, rfl, rfl⟩
        | obj l => exact ⟨_, rfl, rfl⟩

/-- Counterexample for C3 as stated: the claim's own highlighted input — an
`eth_sendTransaction` request with an empty parameter array — yields one
fragment whose `calls` list is **empty**, not non-empty. -/
theorem convert_calls_count_counterexample :
    "eth_sendTransaction" ∈ validMethods ∧
    convertEvmTxToWalletSendCalls
      { method := "eth_sendTransaction", chainId := 8453,
        params := SessionRequestParams.ethTxs [] } "0xuser" =
      Except.ok { version := "1.0", chainId := "0x2105", fromAddr := some "0xuser",
                  calls := [] } := by
  exact ⟨by decide, rfl⟩

/-- Witness for C3: a one-element `eth_sendTransaction` request yields one
fragment with one call, and a `personal_sign` request one with one call. -/
theorem convert_calls_count_witness :
    (∃ w, convertEvmTxToWalletSendCalls
      { method := "eth_sendTransaction", chainId := 8453,
        params := SessionRequestParams.ethTxs [{ toAddr := some "0xT" }] } "0xu" =
        Except.ok w ∧
      w.calls.length =
        (SessionRequestParams.ethTxs [{ toAddr := some "0xT" }]).asTxs.length) ∧
    (∃ w, convertEvmTxToWalletSendCalls
      { method := "personal_sign", chainId := 1,
        params := SessionRequestParams.strParams ["0xmsg", "0xsigner"] } "0xu" =
        Except.ok w ∧ w.calls.length = 1) :=
  ⟨(convert_calls_count
      { method := "eth_sendTransaction", chainId := 8453,
        params := SessionRequestParams.ethTxs [{ toAddr := some "0xT" }] } "0xu").1 rfl,
   ((convert_calls_count
      { method := "personal_sign", chainId := 1,
        params := SessionRequestParams.strParams ["0xmsg", "0xsigner"] } "0xu").2.1 (Or.inl rfl))⟩

/-! ## Claim C4 — send-transaction call descriptors and the batch sender -/

/-- **C4 (amended).** The two send-transaction normalizers split the
claimed behaviour between them. `convertEvmTxToWalletSendCalls` turns each
element of the parameter array into one call descriptor with metadata
`(description, transactionType = method, callIndex = String(index))` and a
pass-through of the element's `to`/`data`/`value`, but its batch sender is
**always** the caller-supplied default (`userAddress`); the elements'
`from` fields are ignored. `extractEvmTxCall` takes the sender from the
first element's `from` (falling back to the default when the field is
absent — or the empty string, which JS `||` also replaces), but its call
metadata is `(description, transactionType)` only, with **no**
`callIndex`. -/
theorem sendTx_descriptor_and_sender (cid : Nat) (p : SessionRequestParams)
    (user : String) (tc : ToolCallArgs) (addr : String)
    (w : WalletSendCallsParams) (hw : extractEvmTxCall tc addr = some w) :
    (∃ v, convertEvmTxToWalletSendCalls ⟨"eth_sendTransaction", cid, p⟩ user =
        Except.ok v ∧
      v.fromAddr = some user ∧
      v.calls.length = p.asTxs.length ∧
      ∀ (k : Nat) (h : k < p.asTxs.length) (h' : k < v.calls.length),
        (v.calls.get ⟨k, h'⟩).metadata =
          { description := "Execute eth_sendTransaction transaction",
            transactionType := "eth_sendTransaction",
            callIndex := some (toString k) } ∧
        (v.calls.get ⟨k, h'⟩).toAddr = (p.asTxs.get ⟨k, h⟩).toAddr ∧
        (v.calls.get ⟨k, h'⟩).data = (p.asTxs.get ⟨k, h⟩).data) ∧
    (w.fromAddr = some (jsOr ((tc.params.head?).bind EthTxParam.fromAddr) addr) ∧
     ∀ c ∈ w.calls, c.metadata =
       { description := jsOr tc.method "bitte tx",
         transactionType := jsOr tc.method "transfer" }) := by
  constructor
  · refine ⟨_, convert_sendTx cid p user, rfl, mapWithIndex_length _ _, ?_⟩
    intro k h h'
    rw [mapWithIndex_get _ _ k h (by simpa [mapWithIndex_length] using h)]
    exact ⟨rfl, rfl, rfl⟩
  · simp only [extractEvmTxCall] at hw
    cases hmo : mapOption (extractCallOf tc.method) tc.params with
    | none => rw [hmo] at hw; exact absurd hw (by simp)
    | some calls =>
      rw [hmo] at hw
      cases hw
      refine ⟨rfl, ?_⟩
      intro c hc
      obtain ⟨a, _, hfa⟩ := mapOption_mem _ tc.params calls hmo c hc
      unfold extractCallOf at hfa
      cases hv : valueHexOf a.value with
      | none => rw [hv] at hfa; exact absurd hfa (by simp)
      | some valueHex => rw [hv] at hfa; cases hfa; rfl

/-- Counterexample for C4 as stated: `convertEvmTxToWalletSendCalls` does
not take the sender from the first element's `from` field — it always uses
the caller-supplied default. Here the first element carries
`from = "0xaaa"` yet the batch sender is `"0xuser"`. -/
theorem sendTx_descriptor_and_sender_counterexample :
    convertEvmTxToWalletSendCalls
      { method := "eth_sendTransaction", chainId := 8453,
        params := SessionRequestParams.ethTxs
          [{ toAddr := some "0xT", data := some "0xD", value := some "0x1",
             fromAddr := some "0xaaa" }] } "0xuser" =
      Except.ok
        { version := "1.0", chainId := "0x2105", fromAddr := some "0xuser",
          calls := [{ toAddr := some "0xT", data := some "0xD", value := some "0x1",
                      metadata := { description := "Execute eth_sendTransaction transaction",
                                    transactionType := "eth_sendTransaction",
                                    callIndex := some "0" } }] } ∧
    ("0xuser" : String) ≠ "0xaaa" := by
  exact ⟨by decide, by decide⟩

/-- Witness for C4: the theorem applied to a concrete one-element request
and a concrete extractable tool call. -/
theorem sendTx_descriptor_and_sender_witness :
    (∃ v, convertEvmTxToWalletSendCalls
        ⟨"eth_sendTransaction", 8453,
          SessionRequestParams.ethTxs [{ toAddr := some "0xT" }]⟩ "0xu" =
        Except.ok v ∧
      v.fromAddr = some "0xu" ∧
      v.calls.length = (SessionRequestParams.ethTxs [{ toAddr := some "0xT" }]).asTxs.length ∧
      ∀ (k : Nat)
        (h : k < (SessionRequestParams.ethTxs [{ toAddr := some "0xT" }]).asTxs.length)
        (h' : k < v.calls.length),
        (v.calls.get ⟨k, h'⟩).metadata =
          { description := "Execute eth_sendTransaction transaction",
            transactionType := "eth_sendTransaction",
            callIndex := some (toString k) } ∧
        (v.calls.get ⟨k, h'⟩).toAddr =
          ((SessionRequestParams.ethTxs [{ toAddr := some "0xT" }]).asTxs.get ⟨k, h⟩).toAddr ∧
        (v.calls.get ⟨k, h'⟩).data =
          ((SessionRequestParams.ethTxs [{ toAddr := some "0xT" }]).asTxs.get ⟨k, h⟩).data) ∧
    (({ version := "1.0.0", chainId := "0x2105", fromAddr := some "0xdefault",
        calls := [{ toAddr := some "0xT", data := none, value := some "0x0", gas := none,
                    metadata := { description := "swap", transactionType := "swap" } }] }
        : WalletSendCallsParams).fromAddr =
      some (jsOr ((({ params := [{ toAddr := some "0xT" }], chainId := some 8453,
                      method := some "swap" } : ToolCallArgs).params.head?).bind
        EthTxParam.fromAddr) "0xdefault") ∧
     ∀ c ∈ ({ version := "1.0.0", chainId := "0x2105", fromAddr := some "0xdefault",
              calls := [{ toAddr := some "0xT", data := none, value := some "0x0", gas := none,
                          metadata := { description := "swap", transactionType := "swap" } }] }
              : WalletSendCallsParams).calls,
       c.metadata =
         { description := jsOr (some "swap") "bitte tx",
           transactionType := jsOr (some "swap") "transfer" }) :=
  sendTx_descriptor_and_sender 8453
    (SessionRequestParams.ethTxs [{ toAddr := some "0xT" }]) "0xu"
    { params := [{ toAddr := some "0xT" }], chainId := some 8453, method := some "swap" }
    "0xdefault" _ (by decide)

/-! ## Claim C5 — typed-data parsing and descriptor shape -/

/-- **C5 (amended).** For a typed-data request, the JSON text must merely
parse as JSON (and not be the literal `null`): on parse failure the
Normalizer throws `MalformedTypedData`; on success it produces one call
descriptor with no target address, `data` equal to the raw typed-data text
hex-encoded, and `metadata.domain` the serialization of the parsed value's
`domain` member — defaulting to the empty object when the value is not an
object, lacks the member, or the member is falsy. Being a structured-data
object with a `domain` field is **not** enforced. -/
theorem convert_typedData_shape (meth addr txt user : String) (cid : Nat)
    (hm : meth = "eth_signTypedData" ∨ meth = "eth_signTypedData_v4") :
    (jsonParse txt = none →
      convertEvmTxToWalletSendCalls
        ⟨meth, cid, SessionRequestParams.strParams [addr, txt]⟩ user =
        Except.error ConvError.malformedTypedData) ∧
    (∀ j, jsonParse txt = some j → j ≠ Json.null →
      ∃ w, convertEvmTxToWalletSendCalls
          ⟨meth, cid, SessionRequestParams.strParams [addr, txt]⟩ user =
          Except.ok w ∧
        w.chainId = chainIdToHex cid ∧
        w.fromAddr = some addr ∧
        ∃ c, w.calls = [c] ∧
          c.toAddr = none ∧
          c.data = some (toHexUtf8 txt) ∧
          c.metadata.domain = some (jsonStringify (domainOf j)) ∧
          c.metadata.transactionType = meth ∧
          c.metadata.signer = some addr) := by
  have he1 : (SessionRequestParams.strParams [addr, txt]).elem1 = some txt := rfl
  have he0 : (SessionRequestParams.strParams [addr, txt]).elem0 = some addr := rfl
  rcases hm with rfl | rfl
  · constructor
    · intro hp
      rw [convert_typedData_v1, he1]
      simp only [hp]
    · intro j hp hnull
      rw [convert_typedData_v1, he1]
      simp only [hp]
      cases j with
      | null => exact absurd rfl hnull
      | bool b => exact ⟨_, rfl, rfl, rfl, _, rfl, rfl, rfl, rfl, rfl, rfl⟩
      | num lit => exact ⟨_, rfl, rfl, rfl, _, rfl, rfl, rfl, rfl, rfl, rfl⟩
      | str s => exact ⟨_, rfl, rfl, rfl, _, rfl, rfl, rfl, rfl, rfl, rfl⟩
      | arr l => exact ⟨_, rfl, rfl, rfl, _, rfl, rfl, rfl, rfl, rfl, rfl⟩
      | obj l => exact ⟨_, rfl, rfl, rfl, _, rfl, rfl, rfl, rfl, rfl, rfl⟩
  · constructor
    · intro hp
      rw [convert_typedData_v4, he1]
      simp only [hp]
    · intro j hp hnull
      rw [convert_typedData_v4, he1]
      simp only [hp]
      cases j with
      | null => exact absurd rfl hnull
      | bool b => exact ⟨_, rfl, rfl, rfl, _, rfl, rfl, rfl, rfl, rfl, rfl⟩
      | num lit => exact ⟨_, rfl, rfl, rfl, _, rfl, rfl, rfl, rfl, rfl, rfl⟩
      | str s => exact ⟨_, rfl, rfl, rfl, _, rfl, rfl, rfl, rfl, rfl, rfl⟩
      | arr l => exact ⟨_, rfl, rfl, rfl, _, rfl, rfl, rfl, rfl, rfl, rfl⟩
      | obj l => exact ⟨_, rfl, rfl, rfl, _, rfl, rfl, rfl, rfl, rfl, rfl⟩

/-- Counterexample for C5 as stated: the typed-data text `"42"` is valid
JSON but not a structured-data object and has no `domain` field, yet the
Normalizer does **not** fail — it produces a descriptor whose domain
metadata is the empty object. -/
theorem convert_typedData_shape_counterexample :
    convertEvmTxToWalletSendCalls
      { method := "eth_signTypedData_v4", chainId := 8453,
        params := SessionRequestParams.strParams ["0xabc", "42"] } "0xu" =
      Except.ok
        { version := "1.0", chainId := "0x2105", fromAddr := some "0xabc",
          calls := [{ data := some "0x3432",
                      metadata := { description := "Sign typed data (v4)",
                                    transactionType := "eth_signTypedData_v4",
                                    signer := some "0xabc",
                                    typedDataHash := some "0x3432",
                                    domain := some "\x7b\x7d" } }] } := by
  decide

/-- Witness for C5: the spec's own scenario. Parse failure on `"not json"`
throws `MalformedTypedData`; the scenario input on chain 8453 yields one
descriptor with no target, hex-encoded raw text, chain hex `0x2105`, and a
serialized domain carrying the verifying contract. -/
theorem convert_typedData_shape_witness :
    (convertEvmTxToWalletSendCalls
      { method := "eth_signTypedData_v4", chainId := 8453,
        params := SessionRequestParams.strParams ["0xabc", "not json"] } "0xu" =
      Except.error ConvError.malformedTypedData) ∧
    (∃ w, convertEvmTxToWalletSendCalls
        { method := "eth_signTypedData_v4", chainId := 8453,
          params := SessionRequestParams.strParams
            ["0xabc", "\x7b\"domain\":\x7b\"verifyingContract\":\"0xCONTRACT\"\x7d\x7d"] }
        "0xu" =
        Except.ok w ∧
      w.chainId = chainIdToHex 8453 ∧
      w.fromAddr = some "0xabc" ∧
      ∃ c, w.calls = [c] ∧
        c.toAddr = none ∧
        c.data = some
          (toHexUtf8 "\x7b\"domain\":\x7b\"verifyingContract\":\"0xCONTRACT\"\x7d\x7d") ∧
        c.metadata.domain = some
          (jsonStringify (domainOf (Json.obj
            [("domain", Json.obj [("verifyingContract", Json.str "0xCONTRACT")])]))) ∧
        c.metadata.transactionType = "eth_signTypedData_v4" ∧
        c.metadata.signer = some "0xabc") ∧
    chainIdToHex 8453 = "0x2105" ∧
    jsonStringify (domainOf (Json.obj
      [("domain", Json.obj [("verifyingContract", Json.str "0xCONTRACT")])])) =
      "\x7b\"verifyingContract\":\"0xCONTRACT\"\x7d" :=
  ⟨(convert_typedData_shape "eth_signTypedData_v4" "0xabc" "not json" "0xu" 8453
      (Or.inr rfl)).1 rfl,
   (convert_typedData_shape "eth_signTypedData_v4" "0xabc"
      "\x7b\"domain\":\x7b\"verifyingContract\":\"0xCONTRACT\"\x7d\x7d" "0xu" 8453
      (Or.inr rfl)).2
      (Json.obj [("domain", Json.obj [("verifyingContract", Json.str "0xCONTRACT")])])
      rfl (fun h => Json.noConfusion h),
   by decide, by decide⟩

/-! ## Claim C6 — numeric field rendering -/

theorem hexDigitChar_mem (k : Nat) : hexDigitChar k ∈ hexChars := by
  unfold hexDigitChar List.getD
  cases h : hexChars.get? k with
  | none => simp [h]; decide
  | some c => simp [h]; exact List.get?_mem h

theorem natHexCore_mem :
    ∀ (fuel n : Nat) (acc : List Char), (∀ c ∈ acc, c ∈ hexChars) →
      ∀ c ∈ natHexCore fuel n acc, c ∈ hexChars
  | 0, _, _, hacc, c, hc => hacc c hc
  | fuel + 1, n, acc, hacc, c, hc => by
    simp only [natHexCore] at hc
    by_cases hn : n = 0
    · rw [if_pos hn] at hc; exact hacc c hc
    · rw [if_neg hn] at hc
      refine natHexCore_mem fuel (n / 16) _ ?_ c hc
      intro d hd
      rcases List.mem_cons.mp hd with rfl | hd
      · exact hexDigitChar_mem _
      · exact hacc d hd

theorem natHexCore_length :
    ∀ (fuel n : Nat) (acc : List Char), acc.length ≤ (natHexCore fuel n acc).length
  | 0, _, _ => le_refl _
  | fuel + 1, n, acc => by
    simp only [natHexCore]
    by_cases hn : n = 0
    · rw [if_pos hn]
    · rw [if_neg hn]
      calc acc.length ≤ (hexDigitChar (n % 16) :: acc).length := by simp
        _ ≤ _ := natHexCore_length fuel (n / 16) _

theorem natHexDigits_wf (n : Nat) :
    natHexDigits n ≠ "" ∧ ∀ c ∈ (natHexDigits n).data, c ∈ hexChars := by
  unfold natHexDigits
  by_cases hn : n = 0
  · rw [if_pos hn]; exact ⟨by decide, by decide⟩
  · rw [if_neg hn]
    constructor
    · intro h
      have hdata : (natHexCore (n + 1) n []).length = 0 := by
        have := congrArg String.data h
        simpa using this
      have h1 : 1 ≤ (natHexCore (n + 1) n []).length := by
        have : natHexCore (n + 1) n [] = natHexCore n (n / 16) [hexDigitChar (n % 16)] := by
          simp [natHexCore, hn]
        rw [this]
        simpa using natHexCore_length n (n / 16) [hexDigitChar (n % 16)]
      omega
    · intro c hc
      exact natHexCore_mem (n + 1) n [] (by simp) c hc

/-- **C6 (amended).** Chain identifiers are rendered as lower-case
`0x`-prefixed hex (`chainIdToHex`), and a `value` field that is already
`0x`-prefixed passes through `extractEvmTxCall` unchanged while a non-hex
`value` is treated as a decimal ether amount and converted to hex wei
(`toHex(parseEther(v))`). A `gas` field however **always** passes through
unchanged, hex-prefixed or not — the claimed decimal-to-hex conversion is
applied to `value` only. -/
theorem numeric_rendering (n : Nat) (tc : ToolCallArgs) (addr : String)
    (w : WalletSendCallsParams) (hw : extractEvmTxCall tc addr = some w) :
    (∃ body, chainIdToHex n = "0x" ++ body ∧ body ≠ "" ∧
      ∀ c ∈ body.data, c ∈ hexChars) ∧
    w.calls.length = tc.params.length ∧
    ∀ (k : Nat) (h : k < tc.params.length) (h' : k < w.calls.length),
      (w.calls.get ⟨k, h'⟩).gas = (tc.params.get ⟨k, h⟩).gas ∧
      (∀ v, (tc.params.get ⟨k, h⟩).value = some v → strStartsWith v "0x" = true →
        (w.calls.get ⟨k, h'⟩).value = some v) ∧
      (∀ v m, (tc.params.get ⟨k, h⟩).value = some v → strStartsWith v "0x" = false →
        parseEther v = some m → (w.calls.get ⟨k, h'⟩).value = some (toHexNat m)) := by
  obtain ⟨hne, hmem⟩ := natHexDigits_wf n
  refine ⟨⟨natHexDigits n, rfl, hne, hmem⟩, ?_⟩
  simp only [extractEvmTxCall] at hw
  cases hmo : mapOption (extractCallOf tc.method) tc.params with
  | none => rw [hmo] at hw; exact absurd hw (by simp)
  | some calls =>
    rw [hmo] at hw
    cases hw
    refine ⟨mapOption_length _ _ _ hmo, ?_⟩
    intro k h h'
    have hk := mapOption_get _ tc.params calls hmo k h (by simpa using h')
    set a := tc.params.get ⟨k, h⟩ with ha
    unfold extractCallOf at hk
    cases hv : valueHexOf a.value with
    | none => rw [hv] at hk; exact absurd hk (by simp)
    | some valueHex =>
      rw [hv] at hk
      have hk' : some
          ({ toAddr := a.toAddr, data := a.data, value := some valueHex, gas := a.gas,
             metadata := { description := jsOr tc.method "bitte tx",
                           transactionType := jsOr tc.method "transfer" } } : WalletCall) =
          some (calls.get ⟨k, by simpa using h'⟩) := hk
      have hcall : calls.get ⟨k, by simpa using h'⟩ =
          { toAddr := a.toAddr, data := a.data, value := some valueHex, gas := a.gas,
            metadata := { description := jsOr tc.method "bitte tx",
                          transactionType := jsOr tc.method "transfer" } } :=
        (Option.some.inj hk').symm
      refine ⟨by rw [hcall], ?_, ?_⟩
      · intro v hav hpre
        have hval : valueHexOf a.value = some v := by
          rw [hav]; simp [valueHexOf, hpre]
        rw [hcall]
        rw [hval] at hv
        cases hv
        rfl
      · intro v m hav hpre hpe
        have hval : valueHexOf a.value = some (toHexNat m) := by
          rw [hav]; simp [valueHexOf, hpre, hpe]
        rw [hcall]
        rw [hval] at hv
        cases hv
        rfl

/-- Counterexample for C6 as stated: a non-hex `gas` field `"21000"` is
**not** converted to hex base units — it passes through verbatim. -/
theorem numeric_rendering_counterexample :
    extractEvmTxCall
      { params := [{ toAddr := some "0xT", value := some "0x1", gas := some "21000" }],
        chainId := some 8453, method := some "transfer" } "0xdefault" =
      some { version := "1.0.0", chainId := "0x2105", fromAddr := some "0xdefault",
             calls := [{ toAddr := some "0xT", data := none, value := some "0x1",
                         gas := some "21000",
                         metadata := { description := "transfer",
                                       transactionType := "transfer" } }] } ∧
    strStartsWith "21000" "0x" = false := by
  exact ⟨by decide, by decide⟩

/-- Witness for C6: the theorem applied at chain id 8453 and a concrete
two-element tool call (one hex value, one decimal ether value). -/
theorem numeric_rendering_witness :
    ((∃ body, chainIdToHex 8453 = "0x" ++ body ∧ body ≠ "" ∧
      ∀ c ∈ body.data, c ∈ hexChars) ∧
    ({ version := "1.0.0", chainId := "0x2105", fromAddr := some "0xd",
       calls := [{ toAddr := some "0xT", data := none, value := some "0x1", gas := some "0x5208",
                   metadata := { description := "m", transactionType := "m" } },
                 { toAddr := some "0xU", data := none, value := some "0xde0b6b3a7640000",
                   gas := some "21000",
                   metadata := { description := "m", transactionType := "m" } }] }
      : WalletSendCallsParams).calls.length =
      ({ params := [{ toAddr := some "0xT", value := some "0x1", gas := some "0x5208" },
                    { toAddr := some "0xU", value := some "1", gas := some "21000" }],
         chainId := some 8453, method := some "m" } : ToolCallArgs).params.length ∧
    ∀ (k : Nat)
      (h : k < ({ params := [{ toAddr := some "0xT", value := some "0x1", gas := some "0x5208" },
                             { toAddr := some "0xU", value := some "1", gas := some "21000" }],
                  chainId := some 8453, method := some "m" } : ToolCallArgs).params.length)
      (h' : k < ({ version := "1.0.0", chainId := "0x2105", fromAddr := some "0xd",
                   calls := [{ toAddr := some "0xT", data := none, value := some "0x1",
                               gas := some "0x5208",
                               metadata := { description := "m", transactionType := "m" } },
                             { toAddr := some "0xU", data := none,
                               value := some "0xde0b6b3a7640000", gas := some "21000",
                               metadata := { description := "m", transactionType := "m" } }] }
                  : WalletSendCallsParams).calls.length),
      (({ version := "1.0.0", chainId := "0x2105", fromAddr := some "0xd",
          calls := [{ toAddr := some "0xT", data := none, value := some "0x1",
                      gas := some "0x5208",
                      metadata := { description := "m", transactionType := "m" } },
                    { toAddr := some "0xU", data := none, value := some "0xde0b6b3a7640000",
                      gas := some "21000",
                      metadata := { description := "m", transactionType := "m" } }] }
         : WalletSendCallsParams).calls.get ⟨k, h'⟩).gas =
        (({ params := [{ toAddr := some "0xT", value := some "0x1", gas := some "0x5208" },
                       { toAddr := some "0xU", value := some "1", gas := some "21000" }],
            chainId := some 8453, method := some "m" } : ToolCallArgs).params.get ⟨k, h⟩).gas ∧
      (∀ v, (({ params := [{ toAddr := some "0xT", value := some "0x1", gas := some "0x5208" },
                           { toAddr := some "0xU", value := some "1", gas := some "21000" }],
                chainId := some 8453, method := some "m" } : ToolCallArgs).params.get
                ⟨k, h⟩).value = some v →
        strStartsWith v "0x" = true →
        (({ version := "1.0.0", chainId := "0x2105", fromAddr := some "0xd",
            calls := [{ toAddr := some "0xT", data := none, value := some "0x1",
                        gas := some "0x5208",
                        metadata := { description := "m", transactionType := "m" } },
                      { toAddr := some "0xU", data := none, value := some "0xde0b6b3a7640000",
                        gas := some "21000",
                        metadata := { description := "m", transactionType := "m" } }] }
           : WalletSendCallsParams).calls.get ⟨k, h'⟩).value = some v) ∧
      (∀ v m, (({ params := [{ toAddr := some "0xT", value := some "0x1", gas := some "0x5208" },
                             { toAddr := some "0xU", value := some "1", gas := some "21000" }],
                  chainId := some 8453, method := some "m" } : ToolCallArgs).params.get
                  ⟨k, h⟩).value = some v →
        strStartsWith v "0x" = false → parseEther v = some m →
        (({ version := "1.0.0", chainId := "0x2105", fromAddr := some "0xd",
            calls := [{ toAddr := some "0xT", data := none, value := some "0x1",
                        gas := some "0x5208",
                        metadata := { description := "m", transactionType := "m" } },
                      { toAddr := some "0xU", data := none, value := some "0xde0b6b3a7640000",
                        gas := some "21000",
                        metadata := { description := "m", transactionType := "m" } }] }
           : WalletSendCallsParams).calls.get ⟨k, h'⟩).value = some (toHexNat m))) :=
  numeric_rendering 8453
    { params := [{ toAddr := some "0xT", value := some "0x1", gas := some "0x5208" },
                 { toAddr := some "0xU", value := some "1", gas := some "21000" }],
      chainId := some 8453, method := some "m" } "0xd" _ (by decide)

/-- Witness for C8: the group dispatch shapes at a concrete text payload. -/
theorem sendMessage_group_shapes_witness :
    sendMessage true "hello" "msg1" XContentType.text =
      (WireContent.wrapped
        { reference := "msg1", content := "hello", contentType := XContentType.text },
       XContentType.reply) ∧
    sendMessage true "hello" "msg1" XContentType.reaction =
      (WireContent.raw "hello", XContentType.reaction) ∧
    sendMessage true "hello" "msg1" XContentType.walletSendCalls =
      (WireContent.wrapped
        { reference := "msg1", content := "hello",
          contentType := XContentType.walletSendCalls },
       XContentType.walletSendCalls) :=
  sendMessage_group_shapes "hello" "msg1"

/-! ## Claim C2 — the Batch Aggregator groups exactly by (chain, sender, version)

The source keys its map by the string `chainId + "-" + from + "-" + version`.
On the fragments the pipeline actually builds — hex chain ids and dotted
version literals, which never contain `'-'`, and a present sender — that
string determines the raw triple, so the string-keyed loop computes exactly
the triple-keyed grouping. -/

theorem dashFree_split_left :
    ∀ (c1 c2 r1 r2 : List Char), '-' ∉ c1 → '-' ∉ c2 →
      c1 ++ '-' :: r1 = c2 ++ '-' :: r2 → c1 = c2 ∧ r1 = r2
  | [], [], r1, r2, _, _, h => by simpa using h
  | [], b :: bs, r1, r2, _, h2, h => by
    simp only [List.nil_append, List.cons_append, List.cons.injEq] at h
    exact absurd (by simp [← h.1]) h2
  | a :: as, [], r1, r2, h1, _, h => by
    simp only [List.nil_append, List.cons_append, List.cons.injEq] at h
    exact absurd (by simp [h.1]) h1
  | a :: as, b :: bs, r1, r2, h1, h2, h => by
    simp only [List.cons_append, List.cons.injEq] at h
    obtain ⟨rfl, h⟩ := h
    obtain ⟨rfl, rfl⟩ := dashFree_split_left as bs r1 r2
      (fun hm => h1 (List.mem_cons_of_mem _ hm))
      (fun hm => h2 (List.mem_cons_of_mem _ hm)) h
    exact ⟨rfl, rfl⟩

theorem dashFree_split_right (f1 f2 v1 v2 : List Char) (h1 : '-' ∉ v1) (h2 : '-' ∉ v2)
    (h : f1 ++ '-' :: v1 = f2 ++ '-' :: v2) : f1 = f2 ∧ v1 = v2 := by
  have hrev : v1.reverse ++ '-' :: f1.reverse = v2.reverse ++ '-' :: f2.reverse := by
    have := congrArg List.reverse h
    simpa [List.reverse_append] using this
  obtain ⟨hv, hf⟩ := dashFree_split_left v1.reverse v2.reverse f1.reverse f2.reverse
    (by simpa using h1) (by simpa using h2) hrev
  constructor
  · simpa using congrArg List.reverse hf
  · simpa using congrArg List.reverse hv

theorem string_data_inj {s t : String} (h : s.data = t.data) : s = t := by
  cases s; cases t; simp only at h; rw [h]

theorem groupKey_data (t : WalletSendCallsParams) :
    (groupKey t).data =
      t.chainId.data ++ '-' :: ((optStr t.fromAddr).data ++ '-' :: t.version.data) := by
  simp [groupKey, String.data_append, List.append_assoc]

theorem groupKey_eq_iff (a b : WalletSendCallsParams)
    (ha : wfFragment a) (hb : wfFragment b) :
    groupKey a = groupKey b ↔ tripleKey a = tripleKey b := by
  obtain ⟨hac, hav, haf⟩ := ha
  obtain ⟨hbc, hbv, hbf⟩ := hb
  constructor
  · intro h
    have hd := congrArg String.data h
    rw [groupKey_data, groupKey_data] at hd
    obtain ⟨hc, hr⟩ := dashFree_split_left _ _ _ _ hac hbc hd
    obtain ⟨hf, hv⟩ := dashFree_split_right _ _ _ _ hav hbv hr
    obtain ⟨fa, hfa⟩ := Option.isSome_iff_exists.mp haf
    obtain ⟨fb, hfb⟩ := Option.isSome_iff_exists.mp hbf
    have : fa = fb := by
      apply string_data_inj
      simpa [optStr, hfa, hfb] using hf
    simp [tripleKey, string_data_inj hc, string_data_inj hv, hfa, hfb, this]
  · intro h
    obtain ⟨h1, h2, h3⟩ : a.chainId = b.chainId ∧ a.fromAddr = b.fromAddr ∧
        a.version = b.version := by
      simpa [tripleKey, Prod.ext_iff] using h
    simp [groupKey, h1, h2, h3]

section AggregatorLemmas

variable {K : Type} [DecidableEq K] (κ : WalletSendCallsParams → K)

theorem dedupByKey_sub :
    ∀ (l : List WalletSendCallsParams) (seen : List K),
      ∀ t0 ∈ dedupByKey κ seen l, t0 ∈ l
  | [], _, t0, h => by simp [dedupByKey] at h
  | t :: ts, seen, t0, h => by
    simp only [dedupByKey] at h
    by_cases hm : κ t ∈ seen
    · rw [if_pos hm] at h
      exact List.mem_cons_of_mem _ (dedupByKey_sub ts seen t0 h)
    · rw [if_neg hm] at h
      rcases List.mem_cons.mp h with rfl | h
      · exact List.mem_cons_self _ _
      · exact List.mem_cons_of_mem _ (dedupByKey_sub ts _ t0 h)

theorem dedupByKey_keys :
    ∀ (l : List WalletSendCallsParams) (seen : List K) (k : K),
      (∃ t0 ∈ dedupByKey κ seen l, κ t0 = k) ↔ (k ∈ l.map κ ∧ k ∉ seen)
  | [], seen, k => by simp [dedupByKey]
  | t :: ts, seen, k => by
    simp only [dedupByKey, List.map_cons, List.mem_cons]
    by_cases hm : κ t ∈ seen
    · rw [if_pos hm, dedupByKey_keys ts seen k]
      constructor
      · rintro ⟨hk, hns⟩; exact ⟨Or.inr hk, hns⟩
      · rintro ⟨rfl | hk, hns⟩
        · exact absurd hm hns
        · exact ⟨hk, hns⟩
    · rw [if_neg hm]
      constructor
      · rintro ⟨t0, ht0, rfl⟩
        rcases List.mem_cons.mp ht0 with rfl | ht0
        · exact ⟨Or.inl rfl, hm⟩
        · obtain ⟨hk, hns⟩ := (dedupByKey_keys ts (κ t :: seen) (κ t0)).mp ⟨t0, ht0, rfl⟩
          exact ⟨Or.inr hk, fun hs => hns (List.mem_cons_of_mem _ hs)⟩
      · rintro ⟨rfl | hk, hns⟩
        · exact ⟨t, List.mem_cons_self _ _, rfl⟩
        · by_cases hkt : k = κ t
          · exact ⟨t, List.mem_cons_self _ _, hkt.symm⟩
          · obtain ⟨t0, ht0, rfl⟩ := (dedupByKey_keys ts (κ t :: seen) k).mpr
              ⟨hk, by simp [hkt, hns]⟩
            exact ⟨t0, List.mem_cons_of_mem _ ht0, rfl⟩

theorem dedupByKey_append_last :
    ∀ (l : List WalletSendCallsParams) (seen : List K) (t : WalletSendCallsParams),
      dedupByKey κ seen (l ++ [t]) =
        if κ t ∈ seen ∨ κ t ∈ l.map κ then dedupByKey κ seen l
        else dedupByKey κ seen l ++ [t]
  | [], seen, t => by
    simp only [List.nil_append, dedupByKey, List.map_nil]
    split_ifs with h1 h2 <;> simp_all
  | x :: xs, seen, t => by
    rw [List.cons_append]
    simp only [dedupByKey, List.map_cons, List.mem_cons]
    by_cases hx : κ x ∈ seen
    · rw [if_pos hx, if_pos hx, dedupByKey_append_last xs seen t]
      by_cases ht : κ t ∈ seen ∨ κ t ∈ xs.map κ
      · rw [if_pos ht, if_pos (by tauto)]
      · rw [if_neg ht, if_neg (by
          rintro (hs | heq | hm)
          exacts [ht (Or.inl hs), ht (Or.inl (heq ▸ hx)), ht (Or.inr hm)])]
    · rw [if_neg hx, if_neg hx, dedupByKey_append_last xs (κ x :: seen) t]
      by_cases ht : κ t ∈ κ x :: seen ∨ κ t ∈ xs.map κ
      · rw [if_pos ht, if_pos (by
          rcases ht with ht | ht
          · rcases List.mem_cons.mp ht with heq | hs
            · exact Or.inr (Or.inl heq)
            · exact Or.inl hs
          · exact Or.inr (Or.inr ht))]
      · rw [if_neg ht, if_neg (by
          rintro (hs | heq | hm)
          · exact ht (Or.inl (List.mem_cons_of_mem _ hs))
          · exact ht (Or.inl (by rw [heq]; exact List.mem_cons_self _ _))
          · exact ht (Or.inr hm))]
        simp

theorem mergeBatch_append_last (l : List WalletSendCallsParams)
    (t t0 : WalletSendCallsParams) :
    mergeBatch κ (l ++ [t]) t0 =
      { version := t0.version, chainId := t0.chainId, fromAddr := t0.fromAddr,
        calls := (mergeBatch κ l t0).calls ++
          (if κ t = κ t0 then t.calls else []) } := by
  unfold mergeBatch
  rw [List.filter_append, List.flatMap_append]
  by_cases h : κ t = κ t0 <;> simp [h, List.filter]

theorem mergeBatch_of_not_mem (l : List WalletSendCallsParams)
    (t0 : WalletSendCallsParams) (h : κ t0 ∉ l.map κ) :
    mergeBatch κ l t0 =
      { version := t0.version, chainId := t0.chainId, fromAddr := t0.fromAddr,
        calls := [] } := by
  unfold mergeBatch
  have : l.filter (fun u => κ u = κ t0) = [] := by
    rw [List.filter_eq_nil_iff]
    intro a ha
    simp only [decide_eq_true_eq]
    intro hk
    exact h (by rw [← hk]; exact List.mem_map_of_mem κ ha)
  rw [this]
  rfl

end AggregatorLemmas

theorem foldl_insertBy_char {K : Type} [DecidableEq K] (κ : WalletSendCallsParams → K)
    (l : List WalletSendCallsParams) :
    l.foldl (insertBy κ) [] =
      (dedupByKey κ [] l).map (fun t0 => (κ t0, mergeBatch κ l t0)) := by
  induction l using List.reverseRecOn with
  | nil => rfl
  | append_singleton l t ih =>
    rw [List.foldl_append, List.foldl_cons, List.foldl_nil, ih]
    have hany :
        ((dedupByKey κ [] l).map (fun t0 => (κ t0, mergeBatch κ l t0))).any
          (fun p => p.1 = κ t) = true ↔ κ t ∈ l.map κ := by
      simp only [List.any_eq_true, List.mem_map, decide_eq_true_eq]
      constructor
      · rintro ⟨p, ⟨t0, ht0, rfl⟩, hk⟩
        exact List.mem_map.mp ((dedupByKey_keys κ l [] (κ t)).mp ⟨t0, ht0, hk⟩).1
      · intro hm
        obtain ⟨t0, ht0, hk⟩ :=
          (dedupByKey_keys κ l [] (κ t)).mpr ⟨List.mem_map.mpr hm, by simp⟩
        exact ⟨(κ t0, mergeBatch κ l t0), ⟨t0, ht0, rfl⟩, hk⟩
    simp only [insertBy]
    by_cases hmem : κ t ∈ l.map κ
    · rw [if_pos (hany.mpr hmem)]
      rw [dedupByKey_append_last κ l [] t, if_pos (Or.inr hmem), List.map_map]
      refine List.map_congr_left ?_
      intro t0 _
      simp only [Function.comp]
      by_cases hk : κ t0 = κ t
      · rw [if_pos hk, mergeBatch_append_last, if_pos hk.symm]
        rfl
      · rw [if_neg hk, mergeBatch_append_last, if_neg (fun h => hk h.symm)]
        simp [mergeBatch]
    · rw [if_neg (fun h => hmem (hany.mp h))]
      rw [dedupByKey_append_last κ l [] t,
        if_neg (by rintro (h | h); exacts [absurd h (List.not_mem_nil _), hmem h]),
        List.map_append]
      congr 1
      · refine List.map_congr_left ?_
        intro t0 ht0
        have ht0l : t0 ∈ l := dedupByKey_sub κ l [] t0 ht0
        have hk : κ t ≠ κ t0 := by
          intro h
          exact hmem (h ▸ List.mem_map_of_mem κ ht0l)
        rw [mergeBatch_append_last, if_neg hk]
        simp [mergeBatch]
      · simp only [List.map_cons, List.map_nil]
        rw [mergeBatch_append_last, if_pos rfl, mergeBatch_of_not_mem κ l t hmem]
        rfl

theorem dedupByKey_congr :
    ∀ (ts : List WalletSendCallsParams) (seenG : List String)
      (seenT : List (String × Option String × String)),
      (∀ u, wfFragment u → (groupKey u ∈ seenG ↔ tripleKey u ∈ seenT)) →
      (∀ u ∈ ts, wfFragment u) →
      dedupByKey groupKey seenG ts = dedupByKey tripleKey seenT ts
  | [], _, _, _, _ => rfl
  | t :: ts, seenG, seenT, hseen, hts => by
    have hwt : wfFragment t := hts t (List.mem_cons_self _ _)
    have hts' : ∀ u ∈ ts, wfFragment u := fun u hu => hts u (List.mem_cons_of_mem _ hu)
    simp only [dedupByKey]
    by_cases hm : groupKey t ∈ seenG
    · rw [if_pos hm, if_pos ((hseen t hwt).mp hm)]
      exact dedupByKey_congr ts seenG seenT hseen hts'
    · rw [if_neg hm, if_neg (fun hc => hm ((hseen t hwt).mpr hc))]
      congr 1
      refine dedupByKey_congr ts (groupKey t :: seenG) (tripleKey t :: seenT) ?_ hts'
      intro u hu
      simp only [List.mem_cons]
      rw [hseen u hu, groupKey_eq_iff u t hu hwt]

theorem filter_key_congr (l : List WalletSendCallsParams) (t0 : WalletSendCallsParams)
    (hl : ∀ u ∈ l, wfFragment u) (h0 : wfFragment t0) :
    l.filter (fun u => groupKey u = groupKey t0) =
      l.filter (fun u => tripleKey u = tripleKey t0) := by
  refine List.filter_congr ?_
  intro u hu
  exact decide_eq_decide.mpr (groupKey_eq_iff u t0 (hl u hu) h0)

/-- **C2.** On well-formed fragments (hex chain id and dotted version — both
dash-free — and a present sender), the Aggregator merges exactly the
fragments sharing one `(chainId, from, version)` triple into one batch by
concatenating their call lists in arrival order, emits one batch per
distinct triple in first-arrival order, and never mixes calls of fragments
with different `(chain, sender)` into one batch: every batch's calls are
precisely the concatenated calls of the same-triple fragments. -/
theorem groupedTxs_groups_by_triple (l : List WalletSendCallsParams)
    (h : ∀ t ∈ l, wfFragment t) :
    groupedTxs l =
      (dedupByKey tripleKey [] l).map (fun t0 => mergeBatch tripleKey l t0) ∧
    (groupedTxs l).map tripleKey = (dedupByKey tripleKey [] l).map tripleKey ∧
    ∀ b ∈ groupedTxs l,
      b.calls = (l.filter (fun t => tripleKey t = tripleKey b)).flatMap
        WalletSendCallsParams.calls := by
  have hmain : groupedTxs l =
      (dedupByKey tripleKey [] l).map (fun t0 => mergeBatch tripleKey l t0) := by
    unfold groupedTxs
    rw [foldl_insertBy_char groupKey l, List.map_map]
    rw [dedupByKey_congr l [] [] (fun u _ => by simp) h]
    refine List.map_congr_left ?_
    intro t0 ht0
    have h0 : wfFragment t0 := h t0 (dedupByKey_sub tripleKey l [] t0 ht0)
    show mergeBatch groupKey l t0 = mergeBatch tripleKey l t0
    unfold mergeBatch
    rw [filter_key_congr l t0 h h0]
  refine ⟨hmain, ?_, ?_⟩
  · rw [hmain, List.map_map]
    rfl
  · intro b hb
    rw [hmain] at hb
    obtain ⟨t0, ht0, rfl⟩ := List.mem_map.mp hb
    rfl

/-- Witness for C2: three concrete fragments — two sharing the (chain,
sender, version) triple, one with a different sender — are grouped into two
batches: the first merges the two same-key call lists in arrival order. -/
theorem groupedTxs_groups_by_triple_witness :
    (∀ t ∈ ([{ version := "1.0.0", chainId := "0x2105", fromAddr := some "0xa",
               calls := [{ toAddr := some "0x1",
                           metadata := { description := "d1", transactionType := "t" } }] },
             { version := "1.0.0", chainId := "0x2105", fromAddr := some "0xa",
               calls := [{ toAddr := some "0x2",
                           metadata := { description := "d2", transactionType := "t" } }] },
             { version := "1.0.0", chainId := "0x2105", fromAddr := some "0xb",
               calls := [{ toAddr := some "0x3",
                           metadata := { description := "d3", transactionType := "t" } }] }]
            : List WalletSendCallsParams), wfFragment t) ∧
    groupedTxs
      [{ version := "1.0.0", chainId := "0x2105", fromAddr := some "0xa",
         calls := [{ toAddr := some "0x1",
                     metadata := { description := "d1", transactionType := "t" } }] },
       { version := "1.0.0", chainId := "0x2105", fromAddr := some "0xa",
         calls := [{ toAddr := some "0x2",
                     metadata := { description := "d2", transactionType := "t" } }] },
       { version := "1.0.0", chainId := "0x2105", fromAddr := some "0xb",
         calls := [{ toAddr := some "0x3",
                     metadata := { description := "d3", transactionType := "t" } }] }] =
      (dedupByKey tripleKey []
        [{ version := "1.0.0", chainId := "0x2105", fromAddr := some "0xa",
           calls := [{ toAddr := some "0x1",
                       metadata := { description := "d1", transactionType := "t" } }] },
         { version := "1.0.0", chainId := "0x2105", fromAddr := some "0xa",
           calls := [{ toAddr := some "0x2",
                       metadata := { description := "d2", transactionType := "t" } }] },
         { version := "1.0.0", chainId := "0x2105", fromAddr := some "0xb",
           calls := [{ toAddr := some "0x3",
                       metadata := { description := "d3", transactionType := "t" } }] }]).map
        (fun t0 => mergeBatch tripleKey
          [{ version := "1.0.0", chainId := "0x2105", fromAddr := some "0xa",
             calls := [{ toAddr := some "0x1",
                         metadata := { description := "d1", transactionType := "t" } }] },
           { version := "1.0.0", chainId := "0x2105", fromAddr := some "0xa",
             calls := [{ toAddr := some "0x2",
                         metadata := { description := "d2", transactionType := "t" } }] },
           { version := "1.0.0", chainId := "0x2105", fromAddr := some "0xb",
             calls := [{ toAddr := some "0x3",
                         metadata := { description := "d3", transactionType := "t" } }] }] t0) :=
  ⟨by decide,
   (groupedTxs_groups_by_triple _ (by decide)).1⟩
